import Mathlib

/-!
# Collator service registration (`source/i18n/coll.cpp`)

A shallow embedding of the registration part of `coll.cpp`: the two service
factories (`ICUCollatorFactory`, `CFactory`), the service object
`ICUCollatorService`, the lazily built global `gService`, and the static
`Collator` entry points that go through them.

Conventions of the embedding.

* A `Locale` is represented by its name, a `UnicodeString` that may be bogus by
  `Option String`, a pointer that may be null by `Option`.
* Calls that change an object take the object and return the changed one; the
  file-level statics `gService` (and the addresses handed out by `new`) live in
  `Globals`.  `gLock` only serialises threads and has no counterpart here.
* The outcome of an allocation that the source tests for null is an argument
  of the function that allocates.
* Code that `coll.cpp` calls but that lives in other files (`iculserv`,
  `icuserv`, `hash`, `locid`, `tblcoll`, `utypes`) is either a field of `Env`
  or a definition whose comment starts with `Modelled from the spec:`.
-/

namespace Coll

/-! ## Status codes -/

/-- Modelled from the spec: `UErrorCode` of `unicode/utypes.h`, which is not among
the sources; an integer, positive for the failure conditions of the error
taxonomy, zero or negative for success. -/
abbrev UErrorCode := Int

/-- Modelled from the spec: the success status a caller starts from (`utypes.h`). -/
def U_ZERO_ERROR : UErrorCode := 0

/-- Modelled from the spec: the InvalidArgument condition (`utypes.h`). -/
def U_ILLEGAL_ARGUMENT_ERROR : UErrorCode := 1

/-- Modelled from the spec: the MissingResource condition (`utypes.h`). -/
def U_MISSING_RESOURCE_ERROR : UErrorCode := 2

/-- Modelled from the spec: the AllocationError condition (`utypes.h`). -/
def U_MEMORY_ALLOCATION_ERROR : UErrorCode := 7

/-- Modelled from the spec: the `U_SUCCESS` test of `utypes.h`. -/
def U_SUCCESS (x : UErrorCode) : Bool := decide (x ≤ U_ZERO_ERROR)

/-- Modelled from the spec: the `U_FAILURE` test of `utypes.h`. -/
def U_FAILURE (x : UErrorCode) : Bool := decide (x > U_ZERO_ERROR)

/-! ## Locales, strings, collators -/

/-- A locale, represented by its name (`Locale::getName`). -/
abbrev Locale := String

/-- A `UnicodeString` result; `none` is the bogus string (`setToBogus`). -/
abbrev UnicodeString := Option String

/-- Modelled from the spec: `LocaleUtility::initLocaleFromName` (`iculserv`), the
locale named by an identifier. -/
def initLocaleFromName (id : String) : Locale := id

/-- A collator instance as far as the registry can see it.  `rules` stands for
the comparison algorithm, which the registry never inspects.  `setLocales` is a
virtual method: `recordsLocales` tells whether the dynamic class overrides it
and keeps the two locales (as `RuleBasedCollator` does) or inherits
`Collator::setLocales`, whose body is empty. -/
structure Collator where
  rules : Nat
  recordsLocales : Bool
  requestedLocale : Locale
  validLocale : Locale
deriving DecidableEq, Repr

/-- The `Collator::setLocales` of coll.cpp (empty body), or the override of
the instance's class. -/
def Collator.setLocales (c : Collator) (requestedLocale validLocale : Locale) : Collator :=
  if c.recordsLocales then
    { c with requestedLocale := requestedLocale, validLocale := validLocale }
  else c

/-- The `clone` of a collator: a copy with the same content. -/
def Collator.clone (c : Collator) : Collator := c

/-- The collaborators of `coll.cpp` that are outside the registry. -/
structure Env where
  /-- The expression `new RuleBasedCollator(desiredLocale, status)`: the object, or
  `none` when `new` gave a null pointer, and the status the constructor left. -/
  newRuleBasedCollator : Locale → UErrorCode → Option Collator × UErrorCode
  /-- The generic renderer `objectLocale.getDisplayName(displayLocale, result)`. -/
  localeDisplayName : Locale → Locale → String
  /-- The process default locale, `Locale::getDefault()`. -/
  defaultLocale : Locale
  /-- The identifiers the built-in factory supports (the supported-ID table of
  `ICUResourceBundleFactory`, not among the sources). -/
  builtinIDs : String → Bool

/-! ## Collator::makeInstance -/

/-- The `Collator::makeInstance` of coll.cpp. -/
def makeInstance (env : Env) (desiredLocale : Locale) (status : UErrorCode) :
    Option Collator × UErrorCode :=
  match env.newRuleBasedCollator desiredLocale status with
  | (none, _) => (none, U_MEMORY_ALLOCATION_ERROR)
  | (some collation, status1) =>
    if U_FAILURE status1 then (none, status1) else (some collation, status1)

/-! ## The caller's factory, `CollatorFactory` -/

/-- A caller-supplied `CollatorFactory`.  `createCollator` and
`getSupportedIDs` are pure virtual; the latter returns the array `idlist` and
sets `count`.  `visible` and `getDisplayName` have an implementation in
coll.cpp that a subclass may override. -/
structure CollatorFactory where
  createCollator : Locale → Option Collator
  idlist : List String
  count : Int
  visibleOverride : Option Bool
  getDisplayNameOverride : Option (Locale → Locale → UnicodeString)

/-- The `CollatorFactory::visible` of coll.cpp returns TRUE. -/
def CollatorFactory.visible (f : CollatorFactory) : Bool :=
  match f.visibleOverride with
  | some b => b
  | none => true

/-- The `CollatorFactory::getDisplayName` of coll.cpp renders the object locale. -/
def CollatorFactory.getDisplayName (env : Env) (f : CollatorFactory)
    (objectLocale displayLocale : Locale) : UnicodeString :=
  match f.getDisplayNameOverride with
  | some g => g objectLocale displayLocale
  | none => some (env.localeDisplayName objectLocale displayLocale)

/-! ## Hashtable of identifiers -/

/-- Modelled from the spec: the `Hashtable` (`hash.h`) holding an adapter's
explicit identifier set.  Every value stored is the adapter itself, so only the
keys are kept. -/
structure Hashtable where
  keys : List String
deriving DecidableEq, Repr

/-- Modelled from the spec: the empty table built by `new Hashtable(status)`. -/
def Hashtable.empty : Hashtable := { keys := [] }

/-- Modelled from the spec: `Hashtable::put`; a key already present is kept once. -/
def Hashtable.put (t : Hashtable) (id : String) : Hashtable :=
  if t.keys.contains id then t else { keys := t.keys ++ [id] }

/-- Modelled from the spec: whether `Hashtable::get(id)` is non-null. -/
def Hashtable.get (t : Hashtable) (id : String) : Bool := t.keys.contains id

/-! ## LocaleKey -/

/-- Modelled from the spec: the `LocaleKey` of `iculserv` (section 4.1): the
canonical form of the requested identifier, the fallback candidate currently
tried, and the process default locale as long as it has not been tried. -/
structure LocaleKey where
  primaryID : String
  currentID : String
  fallbackID : Option String
deriving DecidableEq, Repr

/-- Modelled from the spec: the key built for a lookup of `id`. -/
def LocaleKey.create (id : String) (defaultID : String) : LocaleKey :=
  { primaryID := id, currentID := id, fallbackID := some defaultID }

/-- Modelled from the spec: `canonicalLocale()`, the requested identifier. -/
def LocaleKey.canonicalLocale (key : LocaleKey) : Locale := initLocaleFromName key.primaryID

/-- Modelled from the spec: `currentLocale()`, the identifier being tried. -/
def LocaleKey.currentLocale (key : LocaleKey) : Locale := initLocaleFromName key.currentID

/-- The part of an identifier before its last underscore, if it has one. -/
def truncateLast : List Char → Option (List Char)
  | [] => none
  | c :: rest =>
    match truncateLast rest with
    | some r => some (c :: r)
    | none => if c = '_' then some [] else none

/-- Modelled from the spec: `fallback()`.  The cursor moves to the next less
specific identifier: variant, region, language, then the process default
locale, then the root (the empty identifier); `none` is the source's FALSE,
when the cursor is at the root. -/
def LocaleKey.fallback (key : LocaleKey) : Option LocaleKey :=
  match truncateLast key.currentID.data with
  | some shorter => some { key with currentID := String.mk shorter }
  | none =>
    match key.fallbackID with
    | some d => some { key with currentID := d, fallbackID := none }
    | none =>
      if key.currentID.data ≠ [] then some { key with currentID := "" } else none

/-- A bound on the number of times `fallback` can still succeed. -/
def LocaleKey.fallbackBound (key : LocaleKey) : Nat :=
  key.currentID.data.length +
    (match key.fallbackID with
     | some d => d.data.length + 2
     | none => 0)

/-- The key after `n` successful calls of `fallback`. -/
def LocaleKey.fallbackN : Nat → LocaleKey → Option LocaleKey
  | 0, key => some key
  | n + 1, key =>
    match key.fallback with
    | some k => LocaleKey.fallbackN n k
    | none => none

/-! ## The adapter `CFactory` -/

/-- Modelled from the spec: the coverage value `VISIBLE` of `LocaleKeyFactory`. -/
def VISIBLE : Nat := 0

/-- Modelled from the spec: the coverage value `INVISIBLE` of `LocaleKeyFactory`. -/
def INVISIBLE : Nat := 1

/-- The class `CFactory` of coll.cpp; `_ids` is `none` when it is a null pointer. -/
structure CFactory where
  _coverage : Nat
  _delegate : CollatorFactory
  _ids : Option Hashtable

/-- The constructor `CFactory::CFactory`.  `tableAlloc` tells whether
`new Hashtable(status)` gave an object. -/
def newCFactory (delegate : CollatorFactory) (tableAlloc : Bool) : CFactory :=
  { _coverage := if delegate.visible then VISIBLE else INVISIBLE
    _delegate := delegate
    _ids :=
      if tableAlloc then
        some ((delegate.idlist.take delegate.count.toNat).foldl Hashtable.put Hashtable.empty)
      else none }

/-- The `CFactory::getSupportedIDs` of coll.cpp. -/
def CFactory.getSupportedIDs (f : CFactory) (status : UErrorCode) : Option Hashtable :=
  if U_SUCCESS status then f._ids else none

/-- Modelled from the spec: `LocaleKeyFactory::handlesKey` (`iculserv`), the
handles-test: the key's current candidate is one of the supported identifiers. -/
def CFactory.handlesKey (f : CFactory) (key : LocaleKey) (status : UErrorCode) : Bool :=
  match f.getSupportedIDs status with
  | some ids => ids.get key.currentID
  | none => false

/-- The `CFactory::create` of coll.cpp. -/
def CFactory.create (f : CFactory) (key : LocaleKey) (status : UErrorCode) :
    Option Collator × UErrorCode :=
  if f.handlesKey key status then
    (f._delegate.createCollator key.currentLocale, status)
  else (none, status)

/-- The `CFactory::getDisplayName` of coll.cpp. -/
def CFactory.getDisplayName (env : Env) (f : CFactory) (id : String) (locale : Locale) :
    UnicodeString :=
  if f._coverage &&& 1 = 0 then
    match f.getSupportedIDs U_ZERO_ERROR with
    | some ids =>
      if ids.get id then
        f._delegate.getDisplayName env (initLocaleFromName id) locale
      else none
    | none => none
  else none

/-! ## The built-in factory `ICUCollatorFactory` -/

/-- Modelled from the spec: the handles-test that `ICUCollatorFactory` inherits
from `ICUResourceBundleFactory`: the current candidate is one of the built-in
identifiers. -/
def ICUCollatorFactory.handlesKey (env : Env) (key : LocaleKey) (status : UErrorCode) : Bool :=
  U_SUCCESS status && env.builtinIDs key.currentID

/-- The `ICUCollatorFactory::create` of coll.cpp. -/
def ICUCollatorFactory.create (env : Env) (key : LocaleKey) (status : UErrorCode) :
    Option Collator × UErrorCode :=
  if ICUCollatorFactory.handlesKey env key status then
    makeInstance env key.canonicalLocale status
  else (none, status)

/-- Modelled from the spec: the display name the built-in factory gives: the
generic name for an identifier it supports, bogus for any other. -/
def ICUCollatorFactory.getDisplayName (env : Env) (id : String) (locale : Locale) :
    UnicodeString :=
  if env.builtinIDs id then some (env.localeDisplayName (initLocaleFromName id) locale)
  else none

/-! ## The factory chain and the service object -/

/-- A factory held by the service: the built-in one or an adapter. -/
inductive ServiceFactory where
  | builtin : ServiceFactory
  | adapter : CFactory → ServiceFactory

/-- The virtual call `f->create(key, this, status)`. -/
def ServiceFactory.create (env : Env) (f : ServiceFactory) (key : LocaleKey)
    (status : UErrorCode) : Option Collator × UErrorCode :=
  match f with
  | .builtin => ICUCollatorFactory.create env key status
  | .adapter a => a.create key status

/-- The virtual call `f->getDisplayName(id, locale, result)`. -/
def ServiceFactory.getDisplayName (env : Env) (f : ServiceFactory) (id : String)
    (locale : Locale) : UnicodeString :=
  match f with
  | .builtin => ICUCollatorFactory.getDisplayName env id locale
  | .adapter a => a.getDisplayName env id locale

/-- Modelled from the spec: whether a factory is visible and declares `id`, the
test by which the registry picks the factory that names an identifier. -/
def ServiceFactory.declares (env : Env) (f : ServiceFactory) (id : String) : Bool :=
  match f with
  | .builtin => env.builtinIDs id
  | .adapter a =>
    a._coverage &&& 1 = 0 &&
      (match a.getSupportedIDs U_ZERO_ERROR with
       | some ids => ids.get id
       | none => false)

/-- A registration handle: the address of the registered factory. -/
abbrev URegistryKey := Nat

/-- The state of an `ICUCollatorService`.  The chain and the cache belong to
its base class `ICULocaleService` (`iculserv`): the factories with their
addresses, most recently registered first, and the cached instances by
identifier. -/
structure ICUCollatorService where
  factories : List (URegistryKey × ServiceFactory)
  serviceCache : List (String × Collator)

/-- Modelled from the spec: `ICUService::registerFactory` (section 4.5): the
factory goes to the front of the chain, the cache is cleared, the handle is the
factory's address. -/
def ICUCollatorService.registerFactory (s : ICUCollatorService) (addr : URegistryKey)
    (f : ServiceFactory) : URegistryKey × ICUCollatorService :=
  (addr, { factories := (addr, f) :: s.factories, serviceCache := [] })

/-- The constructor `ICUCollatorService::ICUCollatorService`: an empty service
named "Collator" in which the new `ICUCollatorFactory`, at address `addr`, is
registered. -/
def newICUCollatorService (addr : URegistryKey) : ICUCollatorService :=
  (ICUCollatorService.registerFactory { factories := [], serviceCache := [] } addr
    ServiceFactory.builtin).2

/-- Modelled from the spec: `ICUService::unregister` (section 4.5): removes the
factory at that address and clears the cache; an unknown handle gives FALSE and
changes nothing. -/
def ICUCollatorService.unregister (s : ICUCollatorService) (key : URegistryKey)
    (status : UErrorCode) : Bool × UErrorCode × ICUCollatorService :=
  if s.factories.any (fun p => p.1 == key) then
    (true, status,
      { factories := s.factories.eraseP (fun p => p.1 == key), serviceCache := [] })
  else (false, status, s)

/-- Modelled from the spec: `countFactories()`. -/
def ICUCollatorService.countFactories (s : ICUCollatorService) : Nat := s.factories.length

/-- The `ICUCollatorService::isDefault` of coll.cpp. -/
def ICUCollatorService.isDefault (s : ICUCollatorService) : Bool := s.countFactories == 1

/-- The `ICUCollatorService::handleDefault` of coll.cpp. -/
def ICUCollatorService.handleDefault (env : Env) (key : LocaleKey) (status : UErrorCode) :
    Option Collator × UErrorCode :=
  makeInstance env key.canonicalLocale status

/-- The `ICUCollatorService::cloneInstance` of coll.cpp. -/
def ICUCollatorService.cloneInstance (inst : Collator) : Collator := inst.clone

/-- Modelled from the spec: one walk of the chain, front to back, for the key's
current candidate (section 4.3).  A factory that returns no instance passes the
key on; a failure status stops the walk and is returned (section 7). -/
def walkFactories (env : Env) :
    List (URegistryKey × ServiceFactory) → LocaleKey → UErrorCode → Option Collator × UErrorCode
  | [], _, status => (none, status)
  | (_, f) :: rest, key, status =>
    match f.create env key status with
    | (some c, st) => if U_FAILURE st then (none, st) else (some c, st)
    | (none, st) => if U_FAILURE st then (none, st) else walkFactories env rest key st

/-- Modelled from the spec: `FactoryChain.get(key)` (section 4.3): walk the chain
for the current candidate; when no factory handles it, advance the fallback
cursor and walk again from the front.  Returns the instance with the identifier
that was satisfied, the status, and the key as the search left it.  `fuel`
bounds the number of candidates tried. -/
def resolve (env : Env) (fs : List (URegistryKey × ServiceFactory)) :
    Nat → LocaleKey → UErrorCode → Option (Collator × String) × UErrorCode × LocaleKey
  | 0, key, status => (none, status, key)
  | fuel + 1, key, status =>
    match walkFactories env fs key status with
    | (some c, st) => (some (c, key.currentID), st, key)
    | (none, st) =>
      if U_FAILURE st then (none, st, key)
      else
        match key.fallback with
        | some k => resolve env fs fuel k st
        | none => (none, st, key)

/-- Modelled from the spec: the cache lookup by identifier. -/
def cacheGet (cache : List (String × Collator)) (id : String) : Option Collator :=
  (cache.find? (fun e => e.1 == id)).map (fun e => e.2)

/-- The result of a lookup in the service: the instance, the caller's
`actualReturn` string, the status, the key and the service afterwards. -/
structure Lookup where
  result : Option Collator
  actualReturn : String
  status : UErrorCode
  key : LocaleKey
  service : ICUCollatorService

/-- Modelled from the spec: the resolution through cache and chain (section 4.4,
steps 2 to 4).  A cache hit under the canonical identifier gives a clone of the
cached instance and names the cached identifier.  A miss runs the chain; an
instance found is stored under the identifier that was satisfied, which is
written to `actualReturn`, and a clone is returned.  When no factory produces
an instance the lookup fails with the missing-resource condition, unless a
factory already reported a failure. -/
def ICULocaleService.getKeyChain (env : Env) (s : ICUCollatorService) (key : LocaleKey)
    (actualReturn : String) (status : UErrorCode) : Lookup :=
  match cacheGet s.serviceCache key.primaryID with
  | some cached =>
    { result := some (ICUCollatorService.cloneInstance cached)
      actualReturn := key.primaryID
      status := status
      key := key
      service := s }
  | none =>
    match resolve env s.factories (key.fallbackBound + 1) key status with
    | (some (c, id), st, k) =>
      { result := some (ICUCollatorService.cloneInstance c)
        actualReturn := id
        status := st
        key := k
        service := { s with serviceCache := (id, c) :: s.serviceCache } }
    | (none, st, k) =>
      { result := none
        actualReturn := actualReturn
        status := if U_FAILURE st then st else U_MISSING_RESOURCE_ERROR
        key := k
        service := s }

/-- Modelled from the spec: `ICULocaleService::getKey` (sections 4.4 and 9).  When
the virtual `isDefault()` holds the lookup takes the optimisation path, the
virtual `handleDefault(key, actualReturn, status)`, and touches neither cache
nor chain; `handleDefault` of coll.cpp does not write to its `actualID`
argument, so `actualReturn` stays as the caller passed it.  Otherwise the
lookup is the resolution through cache and chain. -/
def ICULocaleService.getKey (env : Env) (s : ICUCollatorService) (key : LocaleKey)
    (actualReturn : String) (status : UErrorCode) : Lookup :=
  if s.isDefault then
    { result := (ICUCollatorService.handleDefault env key status).1
      actualReturn := actualReturn
      status := (ICUCollatorService.handleDefault env key status).2
      key := key
      service := s }
  else ICULocaleService.getKeyChain env s key actualReturn status

/-- The `ICUCollatorService::getKey` of coll.cpp.  `actualReturn` is `none` for a
null pointer, and then the local string `ar` (empty) takes its place. -/
def ICUCollatorService.getKey (env : Env) (s : ICUCollatorService) (key : LocaleKey)
    (actualReturn : Option String) (status : UErrorCode) : Lookup :=
  let ar : String := ""
  let actualReturn1 : String :=
    match actualReturn with
    | none => ar
    | some a => a
  let r := ICULocaleService.getKey env s key actualReturn1 status
  match r.result with
  | some result =>
    { r with
      result := some (result.setLocales r.key.canonicalLocale
        (initLocaleFromName r.actualReturn)) }
  | none => r

/-- Modelled from the spec: `ICULocaleService::get(locale, status)` (section 4.4,
step 1): builds the key of the requested locale and looks it up through the
virtual `getKey`, with no `actualReturn`. -/
def ICUCollatorService.get (env : Env) (s : ICUCollatorService) (locale : Locale)
    (status : UErrorCode) : Lookup :=
  ICUCollatorService.getKey env s (LocaleKey.create locale env.defaultLocale) none status

/-- Modelled from the spec: `ICULocaleService::getDisplayName` (section 6): the
name comes from the first factory of the chain that is visible and declares
the identifier; when no factory claims it, from the generic renderer. -/
def ICUCollatorService.getDisplayName (env : Env) (s : ICUCollatorService) (id : String)
    (displayLocale : Locale) : UnicodeString :=
  match s.factories.find? (fun p => p.2.declares env id) with
  | some p => p.2.getDisplayName env id displayLocale
  | none => some (env.localeDisplayName (initLocaleFromName id) displayLocale)

/-! ## The global service and the static entry points -/

/-- The statics of coll.cpp: `gService` (`none` is NULL), and the next address
`new` hands out, which stands for the identity of heap objects. -/
structure Globals where
  gService : Option ICUCollatorService
  nextAddr : Nat

/-- The state at program start: `gService = NULL`. -/
def Globals.initial : Globals := { gService := none, nextAddr := 0 }

/-- The `getService` of coll.cpp. -/
def getService (g : Globals) : ICUCollatorService × Globals :=
  match g.gService with
  | none =>
    let s := newICUCollatorService g.nextAddr
    (s, { gService := some s, nextAddr := g.nextAddr + 1 })
  | some s => (s, g)

/-- The `hasService` of coll.cpp. -/
def hasService (g : Globals) : Bool := g.gService.isSome

/-- The `Collator::createInstance(const Locale&, UErrorCode&)` of coll.cpp. -/
def createInstance (env : Env) (desiredLocale : Locale) (status : UErrorCode) (g : Globals) :
    Option Collator × UErrorCode × Globals :=
  if U_FAILURE status then (none, status, g)
  else
    match g.gService with
    | some s =>
      let r := s.get env desiredLocale status
      (r.result, r.status, { g with gService := some r.service })
    | none =>
      let r := makeInstance env desiredLocale status
      (r.1, r.2, g)

/-- The `Collator::getDisplayName(objectLocale, displayLocale, name)` of coll.cpp. -/
def getDisplayName (env : Env) (objectLocale displayLocale : Locale) (g : Globals) :
    UnicodeString :=
  match g.gService with
  | some s => s.getDisplayName env objectLocale displayLocale
  | none => some (env.localeDisplayName objectLocale displayLocale)

/-- The `Collator::registerFactory` of coll.cpp.  `adapterAlloc` tells whether
`new CFactory(toAdopt)` gave an object, `tableAlloc` the same for the table
its constructor allocates. -/
def registerFactory (toAdopt : CollatorFactory) (status : UErrorCode)
    (adapterAlloc tableAlloc : Bool) (g : Globals) :
    Option URegistryKey × UErrorCode × Globals :=
  if U_SUCCESS status then
    if adapterAlloc then
      let f := newCFactory toAdopt tableAlloc
      let addr := g.nextAddr
      let (s, g1) := getService { g with nextAddr := g.nextAddr + 1 }
      let (key, s1) := s.registerFactory addr (ServiceFactory.adapter f)
      (some key, status, { g1 with gService := some s1 })
    else (none, U_MEMORY_ALLOCATION_ERROR, g)
  else (none, status, g)

/-- The `Collator::unregister` of coll.cpp. -/
def unregister (key : URegistryKey) (status : UErrorCode) (g : Globals) :
    Bool × UErrorCode × Globals :=
  if U_SUCCESS status then
    match g.gService with
    | some s =>
      let r := s.unregister key status
      (r.1, r.2.1, { g with gService := some r.2.2 })
    | none => (false, U_ILLEGAL_ARGUMENT_ERROR, g)
  else (false, status, g)

/-- The `collator_cleanup` of coll.cpp. -/
def collator_cleanup (g : Globals) : Bool × Globals :=
  (true, { g with gService := none })

/-! ## Sample collaborators and factories, used to evaluate the code -/

/-- A collator built by the `RuleBasedCollator` constructor for a locale. -/
def sampleRuleBased (loc : Locale) : Collator :=
  { rules := 0, recordsLocales := true, requestedLocale := loc, validLocale := loc }

/-- Sample collaborators: construction always succeeds, the default locale is
`en_US`, and the built-in factory supports every identifier (`all`) or only
`en`, `en_US` and the root. -/
def sampleEnv (all : Bool) : Env :=
  { newRuleBasedCollator := fun loc st => (some (sampleRuleBased loc), st)
    localeDisplayName := fun o d => o ++ " in " ++ d
    defaultLocale := "en_US"
    builtinIDs := fun id => all || id == "en" || id == "en_US" || id == "" }

/-- A caller's factory that declares exactly `xx` and creates its own collators;
`count` is the number of entries of its list it reports. -/
def sampleFactory (count : Int) : CollatorFactory :=
  { createCollator := fun loc =>
      some { rules := 1, recordsLocales := true, requestedLocale := loc, validLocale := loc }
    idlist := ["xx", "xx"]
    count := count
    visibleOverride := none
    getDisplayNameOverride := none }

/-- A caller's factory that declares `xx` and creates no collator at all. -/
def nullFactory : CollatorFactory :=
  { createCollator := fun _ => none
    idlist := ["xx"]
    count := 1
    visibleOverride := none
    getDisplayNameOverride := none }

/-- A key for the request `xx_YY` whose cursor has fallen back to `xx`. -/
def sampleKey : LocaleKey := { primaryID := "xx_YY", currentID := "xx", fallbackID := none }

/-- The globals after `sampleFactory 1` was registered at program start. -/
def sampleGlobals : Globals :=
  (registerFactory (sampleFactory 1) U_ZERO_ERROR true true Globals.initial).2.2

/-- The service of `sampleGlobals`: the adapter at address 0 in front of the
built-in factory at address 1, and an empty cache. -/
def sampleService : ICUCollatorService :=
  { factories := [(0, ServiceFactory.adapter (newCFactory (sampleFactory 1) true)),
                  (1, ServiceFactory.builtin)]
    serviceCache := [] }

/-- Whether an identifier is in the adapter's declared identifier set; an adapter
without a table declares nothing. -/
def CFactory.declaresID (f : CFactory) (id : String) : Bool :=
  match f._ids with
  | some t => t.get id
  | none => false

/-- The invariant of the globals: every factory of the chain sits at an address
that `new` has already handed out. -/
def Globals.wf (g : Globals) : Prop :=
  ∀ s, g.gService = some s → ∀ p ∈ s.factories, p.1 < g.nextAddr

/-! ## The remaining static entry points of coll.cpp -/

/-- The `Collator::createInstance(UErrorCode&)` of coll.cpp. -/
def createInstanceDefault (env : Env) (success : UErrorCode) (g : Globals) :
    Option Collator × UErrorCode × Globals :=
  if U_FAILURE success then (none, success, g)
  else createInstance env env.defaultLocale success g

/-- Modelled from the spec: `UVersionInfo` of `utypes.h`, an array of four bytes. -/
abbrev UVersionInfo := Nat × Nat × Nat × Nat

/-- The `Collator::createInstance(const Locale&, UVersionInfo, UErrorCode&)` of
coll.cpp.  `getVersion` is the virtual `getVersion` of the collator; the
`uprv_memcmp` over the four bytes is non-zero exactly when the two arrays
differ.  The function reads and writes no static of the file. -/
def createInstanceVersion (env : Env) (getVersion : Collator → UVersionInfo) (loc : Locale)
    (version : UVersionInfo) (status : UErrorCode) : Option Collator × UErrorCode :=
  match env.newRuleBasedCollator loc status with
  | (none, _) => (none, U_MEMORY_ALLOCATION_ERROR)
  | (some collator, status1) =>
    if U_SUCCESS status1 then
      if version ≠ getVersion collator then (none, U_MISSING_RESOURCE_ERROR)
      else (some collator, status1)
    else (some collator, status1)

/-- The type of `ICULocaleService::registerInstance`, which is neither among the
sources nor described by the spec and is therefore an argument of
`registerInstance`: from the service, the instance, the locale and the status
to the handle, the status and the service afterwards. -/
abbrev ServiceRegisterInstance :=
  ICUCollatorService → Collator → Locale → UErrorCode →
    Option URegistryKey × UErrorCode × ICUCollatorService

/-- The `Collator::registerInstance` of coll.cpp. -/
def registerInstance (serviceRegister : ServiceRegisterInstance) (toAdopt : Collator)
    (locale : Locale) (status : UErrorCode) (g : Globals) :
    Option URegistryKey × UErrorCode × Globals :=
  if U_SUCCESS status then
    let (s, g1) := getService g
    let r := serviceRegister s toAdopt locale status
    (r.1, r.2.1, { g1 with gService := some r.2.2 })
  else (none, status, g)

/-- Modelled from the spec: `ICULocaleService::getAvailableLocales` (section 6):
the set of identifiers that the visible factories declare. -/
def ICUCollatorService.getAvailableLocales (env : Env) (s : ICUCollatorService) :
    String → Bool :=
  fun id => s.factories.any (fun p => p.2.declares env id)

/-- The `Collator::getAvailableLocales(void)` of coll.cpp. -/
def getAvailableLocales (env : Env) (g : Globals) : (String → Bool) × Globals :=
  let (s, g1) := getService g
  (s.getAvailableLocales env, g1)

/-- A call of one of the static entry points that go through `gService`,
teardown apart. -/
inductive ApiCall where
  | createInstance (desiredLocale : Locale) (status : UErrorCode)
  | createInstanceDefault (status : UErrorCode)
  | getDisplayName (objectLocale displayLocale : Locale)
  | registerInstance (toAdopt : Collator) (locale : Locale) (status : UErrorCode)
  | registerFactory (toAdopt : CollatorFactory) (status : UErrorCode)
      (adapterAlloc tableAlloc : Bool)
  | unregister (key : URegistryKey) (status : UErrorCode)
  | getAvailableLocales

/-- The globals after a call. -/
def ApiCall.run (env : Env) (serviceRegister : ServiceRegisterInstance) :
    ApiCall → Globals → Globals
  | .createInstance desiredLocale status, g => (Coll.createInstance env desiredLocale status g).2.2
  | .createInstanceDefault status, g => (Coll.createInstanceDefault env status g).2.2
  | .getDisplayName _ _, g => g
  | .registerInstance toAdopt locale status, g =>
    (Coll.registerInstance serviceRegister toAdopt locale status g).2.2
  | .registerFactory toAdopt status adapterAlloc tableAlloc, g =>
    (Coll.registerFactory toAdopt status adapterAlloc tableAlloc g).2.2
  | .unregister key status, g => (Coll.unregister key status g).2.2
  | .getAvailableLocales, g => (Coll.getAvailableLocales env g).2

/-- The globals after a sequence of calls. -/
def runCalls (env : Env) (serviceRegister : ServiceRegisterInstance) :
    List ApiCall → Globals → Globals
  | [], g => g
  | c :: cs, g => runCalls env serviceRegister cs (c.run env serviceRegister g)

/-- The number of calls of a sequence during which the registry is constructed:
`gService` is null before the call and set after it. -/
def constructions (env : Env) (serviceRegister : ServiceRegisterInstance) :
    List ApiCall → Globals → Nat
  | [], _ => 0
  | c :: cs, g =>
    (if !hasService g && hasService (c.run env serviceRegister g) then 1 else 0) +
      constructions env serviceRegister cs (c.run env serviceRegister g)

/-- A caller's factory like `sampleFactory 1` whose `visible()` returns FALSE. -/
def invisibleFactory : CollatorFactory :=
  { sampleFactory 1 with visibleOverride := some false }

/-- A service-level `registerInstance` that refuses every instance. -/
def sampleServiceRegister : ServiceRegisterInstance :=
  fun s _ _ status => (none, status, s)

/-- A `getVersion` under which every collator has version 1.2.3.4. -/
def sampleVersion : Collator → UVersionInfo := fun _ => (1, 2, 3, 4)

/-- A caller's factory that declares no identifier and creates no collator. -/
def emptyFactory : CollatorFactory :=
  { createCollator := fun _ => none
    idlist := []
    count := 0
    visibleOverride := none
    getDisplayNameOverride := none }

/-- The globals after `getAvailableLocales()` at program start: the registry
exists and holds the built-in factory alone. -/
def defaultGlobals (env : Env) : Globals := (getAvailableLocales env Globals.initial).2

/-- The factories of the chain, none when there is no registry. -/
def Globals.chain (g : Globals) : List (URegistryKey × ServiceFactory) :=
  match g.gService with
  | some s => s.factories
  | none => []

/-- The handles under which the factories of the chain are registered. -/
def Globals.handles (g : Globals) : List URegistryKey := g.chain.map (fun p => p.1)

/-- The invariant of the heap: the factories of the chain sit at distinct
addresses, all of which `new` has already handed out. -/
def Globals.wfHandles (g : Globals) : Prop :=
  g.handles.Nodup ∧ ∀ k ∈ g.handles, k < g.nextAddr

/-- Whether a call is a registration. -/
def ApiCall.registers : ApiCall → Bool
  | .registerInstance _ _ _ => true
  | .registerFactory _ _ _ _ => true
  | _ => false

/-- Whether a call leaves the registration under the handle `h` alone: every call
but `unregister` of `h` itself, and but `registerInstance`, whose service part
is not among the sources. -/
def ApiCall.keeps (h : URegistryKey) : ApiCall → Bool
  | .unregister key _ => key != h
  | .registerInstance _ _ _ => false
  | _ => true

end Coll

/-!
# String transformations (`source/test/cintltst/custrtrn.c`)

The test file calls `u_strToUTF32`, `u_strFromUTF32`, `u_strToUTF8` and
`u_strFromUTF8` of `unicode/ustring.h`, whose code is not among the sources.
They are modelled as the spec describes them, as well-specified buffer
transforms between the UTF-16, UTF-32 and UTF-8 encoding forms, with the calling
convention the test uses: a destination capacity, the length the output needs
(`pDestLength`), a source length that is -1 for a NUL-terminated source, and a
status.  Code units are natural numbers; the test's arrays are taken from the
source as they are.
-/

namespace Ustrtrn

open Coll

/-- Modelled from the spec: the status for ill-formed input (`utypes.h`). -/
def U_INVALID_CHAR_FOUND : UErrorCode := 10

/-- Modelled from the spec: the status of a preflight, when the output does not
fit the destination (`utypes.h`). -/
def U_BUFFER_OVERFLOW_ERROR : UErrorCode := 15

/-- Modelled from the spec: the warning for an output that fills the destination
and leaves no room for the terminating NUL (`utypes.h`). -/
def U_STRING_NOT_TERMINATED_WARNING : UErrorCode := -124

/-- The array `src32` of custrtrn.c. -/
def src32 : List Nat := [
    0x00A8, 0x3003, 0x3005, 0x2015, 0xFF5E, 0x2016, 0x2026, 0x2018, 0x000D, 0x000A,
    0x2019, 0x201C, 0x201D, 0x3014, 0x3015, 0x3008, 0x3009, 0x300A, 0x000D, 0x000A,
    0x300B, 0x300C, 0x300D, 0x300E, 0x300F, 0x3016, 0x3017, 0x3010, 0x000D, 0x000A,
    0x3011, 0x00B1, 0x00D7, 0x00F7, 0x2236, 0x2227, 0x7FC1, 0x8956, 0x000D, 0x000A,
    0x9D2C, 0x9D0E, 0x9EC4, 0x5CA1, 0x6C96, 0x837B, 0x5104, 0x5C4B, 0x000D, 0x000A,
    0x61B6, 0x81C6, 0x6876, 0x7261, 0x4E59, 0x4FFA, 0x5378, 0x57F7, 0x000D, 0x000A,
    0x57F4, 0x57F9, 0x57FA, 0x57FC, 0x5800, 0x5802, 0x5805, 0x5806, 0x000D, 0x000A,
    0x580A, 0x581E, 0x6BB5, 0x6BB7, 0x6BBA, 0x6BBC, 0x9CE2, 0x977C, 0x000D, 0x000A,
    0x6BBF, 0x6BC1, 0x6BC5, 0x6BC6, 0x6BCB, 0x6BCD, 0x6BCF, 0x6BD2, 0x000D, 0x000A,
    0x6BD3, 0x6BD4, 0x6BD6, 0x6BD7, 0x6BD8, 0x6BDB, 0x6BEB, 0x6BEC, 0x000D, 0x000A,
    0x6C05, 0x6C08, 0x6C0F, 0x6C11, 0x6C13, 0x6C23, 0x6C34, 0x0041, 0x000D, 0x000A,
    0x0043, 0x0044, 0x0045, 0x0046, 0x0047, 0x0048, 0x0049, 0x004A, 0x000D, 0x000A,
    0x004B, 0x004C, 0x004D, 0x004E, 0x004F, 0x0050, 0x0051, 0x0052, 0x000D, 0x000A,
    0x0053, 0x0054, 0x0055, 0x0056, 0x0057, 0x0058, 0x0059, 0x005A, 0x000D, 0x000A,
    0x005B, 0x9792, 0x9CCC, 0x9CCD, 0x9CCE, 0x9CCF, 0x9CD0, 0x9CD3, 0x000D, 0x000A,
    0x9CD4, 0x9CD5, 0x9CD7, 0x9CD8, 0x9CD9, 0x9CDC, 0x9CDD, 0x9CDF, 0x000D, 0x000A,
    0x9785, 0x9791, 0x00BD, 0x0390, 0x0385, 0x0386, 0x0388, 0x0389, 0x000D, 0x000A,
    0x038E, 0x038F, 0x0390, 0x0391, 0x0392, 0x0393, 0x0394, 0x0395, 0x000D, 0x000A,
    0x0396, 0x0397, 0x0398, 0x0399, 0x039A, 0x038A, 0x038C, 0x039C, 0x000D, 0x000A,
    0x2A699, 0x2A69C, 0x2A69D, 0x2A69E, 0x2A69F, 0x2A6A0, 0x2A6A5, 0x2A6A6, 0x2A6A7, 0x2A6A8,
    0x2A6AB, 0x2A6AC, 0x2A6AD, 0x2A6AE, 0x2A6AF, 0x2A6B0, 0x2A6B1, 0x2A6B3, 0x2A6B5, 0x2A6B6,
    0x2A6B7, 0x2A6B8, 0x2A6B9, 0x2A6BA, 0x2A6BB, 0x2A6BC, 0x2A6BD, 0x2A6BE, 0x2A6BF, 0x2A6C0,
    0x2A6C1, 0x2A6C2, 0x2A6C3, 0x2A6C4, 0x2A6C8, 0x2A6CA, 0x2A6CB, 0x2A6CD, 0x2A6CE, 0x2A6CF,
    0x2A6D0, 0x2A6D1, 0x2A6D2, 0x2A6D3, 0x2A6D4, 0x2A6D5, 0x4DB3, 0x4DB4, 0x4DB5, 0x4E00,
    0x4E00, 0x4E01, 0x4E02, 0x4E03, 0x000D, 0x000A, 0x0392, 0x0393, 0x0394, 0x0395,
    0x0396, 0x0397, 0x33E0, 0x33E6, 0x000D, 0x000A, 0x4E05, 0x4E07, 0x4E04, 0x4E08,
    0x4E08, 0x4E09, 0x4E0A, 0x4E0B, 0x000D, 0x000A, 0x4E0C, 0x0021, 0x0022, 0x0023,
    0x0024, 0xFF40, 0xFF41, 0xFF42, 0x000D, 0x000A, 0xFF43, 0xFF44, 0xFF45, 0xFF46,
    0xFF47, 0xFF48, 0xFF49, 0xFF4A, 0x000D, 0x000A, 0x0000]

/-- The array `src16` of custrtrn.c. -/
def src16 : List Nat := [
    0x00A8, 0x3003, 0x3005, 0x2015, 0xFF5E, 0x2016, 0x2026, 0x2018, 0x000D, 0x000A,
    0x2019, 0x201C, 0x201D, 0x3014, 0x3015, 0x3008, 0x3009, 0x300A, 0x000D, 0x000A,
    0x300B, 0x300C, 0x300D, 0x300E, 0x300F, 0x3016, 0x3017, 0x3010, 0x000D, 0x000A,
    0x3011, 0x00B1, 0x00D7, 0x00F7, 0x2236, 0x2227, 0x7FC1, 0x8956, 0x000D, 0x000A,
    0x9D2C, 0x9D0E, 0x9EC4, 0x5CA1, 0x6C96, 0x837B, 0x5104, 0x5C4B, 0x000D, 0x000A,
    0x61B6, 0x81C6, 0x6876, 0x7261, 0x4E59, 0x4FFA, 0x5378, 0x57F7, 0x000D, 0x000A,
    0x57F4, 0x57F9, 0x57FA, 0x57FC, 0x5800, 0x5802, 0x5805, 0x5806, 0x000D, 0x000A,
    0x580A, 0x581E, 0x6BB5, 0x6BB7, 0x6BBA, 0x6BBC, 0x9CE2, 0x977C, 0x000D, 0x000A,
    0x6BBF, 0x6BC1, 0x6BC5, 0x6BC6, 0x6BCB, 0x6BCD, 0x6BCF, 0x6BD2, 0x000D, 0x000A,
    0x6BD3, 0x6BD4, 0x6BD6, 0x6BD7, 0x6BD8, 0x6BDB, 0x6BEB, 0x6BEC, 0x000D, 0x000A,
    0x6C05, 0x6C08, 0x6C0F, 0x6C11, 0x6C13, 0x6C23, 0x6C34, 0x0041, 0x000D, 0x000A,
    0x0043, 0x0044, 0x0045, 0x0046, 0x0047, 0x0048, 0x0049, 0x004A, 0x000D, 0x000A,
    0x004B, 0x004C, 0x004D, 0x004E, 0x004F, 0x0050, 0x0051, 0x0052, 0x000D, 0x000A,
    0x0053, 0x0054, 0x0055, 0x0056, 0x0057, 0x0058, 0x0059, 0x005A, 0x000D, 0x000A,
    0x005B, 0x9792, 0x9CCC, 0x9CCD, 0x9CCE, 0x9CCF, 0x9CD0, 0x9CD3, 0x000D, 0x000A,
    0x9CD4, 0x9CD5, 0x9CD7, 0x9CD8, 0x9CD9, 0x9CDC, 0x9CDD, 0x9CDF, 0x000D, 0x000A,
    0x9785, 0x9791, 0x00BD, 0x0390, 0x0385, 0x0386, 0x0388, 0x0389, 0x000D, 0x000A,
    0x038E, 0x038F, 0x0390, 0x0391, 0x0392, 0x0393, 0x0394, 0x0395, 0x000D, 0x000A,
    0x0396, 0x0397, 0x0398, 0x0399, 0x039A, 0x038A, 0x038C, 0x039C, 0x000D, 0x000A,
    0xD869, 0xDE99, 0xD869, 0xDE9C, 0xD869, 0xDE9D, 0xD869, 0xDE9E, 0xD869, 0xDE9F,
    0xD869, 0xDEA0, 0xD869, 0xDEA5, 0xD869, 0xDEA6, 0xD869, 0xDEA7, 0xD869, 0xDEA8,
    0xD869, 0xDEAB, 0xD869, 0xDEAC, 0xD869, 0xDEAD, 0xD869, 0xDEAE, 0xD869, 0xDEAF,
    0xD869, 0xDEB0, 0xD869, 0xDEB1, 0xD869, 0xDEB3, 0xD869, 0xDEB5, 0xD869, 0xDEB6,
    0xD869, 0xDEB7, 0xD869, 0xDEB8, 0xD869, 0xDEB9, 0xD869, 0xDEBA, 0xD869, 0xDEBB,
    0xD869, 0xDEBC, 0xD869, 0xDEBD, 0xD869, 0xDEBE, 0xD869, 0xDEBF, 0xD869, 0xDEC0,
    0xD869, 0xDEC1, 0xD869, 0xDEC2, 0xD869, 0xDEC3, 0xD869, 0xDEC4, 0xD869, 0xDEC8,
    0xD869, 0xDECA, 0xD869, 0xDECB, 0xD869, 0xDECD, 0xD869, 0xDECE, 0xD869, 0xDECF,
    0xD869, 0xDED0, 0xD869, 0xDED1, 0xD869, 0xDED2, 0xD869, 0xDED3, 0xD869, 0xDED4,
    0xD869, 0xDED5, 0x4DB3, 0x4DB4, 0x4DB5, 0x4E00, 0x4E00, 0x4E01, 0x4E02, 0x4E03,
    0x000D, 0x000A, 0x0392, 0x0393, 0x0394, 0x0395, 0x0396, 0x0397, 0x33E0, 0x33E6,
    0x000D, 0x000A, 0x4E05, 0x4E07, 0x4E04, 0x4E08, 0x4E08, 0x4E09, 0x4E0A, 0x4E0B,
    0x000D, 0x000A, 0x4E0C, 0x0021, 0x0022, 0x0023, 0x0024, 0xFF40, 0xFF41, 0xFF42,
    0x000D, 0x000A, 0xFF43, 0xFF44, 0xFF45, 0xFF46, 0xFF47, 0xFF48, 0xFF49, 0xFF4A,
    0x000D, 0x000A, 0x0000]

/-- A lead (high) surrogate unit. -/
def isLead (u : Nat) : Bool := 0xD800 ≤ u && u < 0xDC00

/-- A trail (low) surrogate unit. -/
def isTrail (u : Nat) : Bool := 0xDC00 ≤ u && u < 0xE000

/-- A Unicode scalar value: a code point that is not a surrogate. -/
def isScalar (c : Nat) : Bool := c < 0x110000 && !(0xD800 ≤ c && c < 0xE000)

/-- The supplementary code point a surrogate pair encodes. -/
def pairValue (lead trail : Nat) : Nat := 0x10000 + (lead - 0xD800) * 0x400 + (trail - 0xDC00)

/-- A well-formed UTF-16 string: 16-bit units, every lead surrogate followed by
a trail surrogate, and no other surrogate. -/
def wellFormed16 : List Nat → Bool
  | [] => true
  | [u] => !isLead u && !isTrail u && u < 0x10000
  | u :: t :: rest =>
    if isLead u then isTrail t && wellFormed16 rest
    else !isTrail u && u < 0x10000 && wellFormed16 (t :: rest)

/-- Modelled from the spec: the code points of a UTF-16 string; `none` when the
string is ill-formed. -/
def decode16 : List Nat → Option (List Nat)
  | [] => some []
  | [u] => if isLead u || isTrail u || 0x10000 ≤ u then none else some [u]
  | u :: t :: rest =>
    if isLead u then
      if isTrail t then (decode16 rest).map (fun cs => pairValue u t :: cs) else none
    else if isTrail u || 0x10000 ≤ u then none
    else (decode16 (t :: rest)).map (fun cs => u :: cs)

/-- Modelled from the spec: the UTF-16 units of one code point. -/
def encode16One (c : Nat) : Option (List Nat) :=
  if c < 0x10000 then
    if 0xD800 ≤ c && c < 0xE000 then none else some [c]
  else if c < 0x110000 then
    some [0xD800 + (c - 0x10000) / 0x400, 0xDC00 + (c - 0x10000) % 0x400]
  else none

/-- Modelled from the spec: the UTF-8 bytes of one code point. -/
def encode8One (c : Nat) : Option (List Nat) :=
  if c < 0x80 then some [c]
  else if c < 0x800 then some [0xC0 + c / 0x40, 0x80 + c % 0x40]
  else if c < 0x10000 then
    if 0xD800 ≤ c && c < 0xE000 then none
    else some [0xE0 + c / 0x1000, 0x80 + c / 0x40 % 0x40, 0x80 + c % 0x40]
  else if c < 0x110000 then
    some [0xF0 + c / 0x40000, 0x80 + c / 0x1000 % 0x40, 0x80 + c / 0x40 % 0x40,
      0x80 + c % 0x40]
  else none

/-- The units of a list of code points, one code point after the other. -/
def encodeAll (one : Nat → Option (List Nat)) : List Nat → Option (List Nat)
  | [] => some []
  | c :: cs =>
    match one c, encodeAll one cs with
    | some a, some b => some (a ++ b)
    | _, _ => none

/-- A UTF-8 continuation byte. -/
def isCont (b : Nat) : Bool := 0x80 ≤ b && b < 0xC0

/-- Modelled from the spec: the code points of a UTF-8 string; `none` when the
string is ill-formed (a stray or missing continuation byte, an overlong form, a
surrogate, a value above 0x10FFFF).  `fuel` bounds the number of code points
read; the length of the string is enough. -/
def decode8 : Nat → List Nat → Option (List Nat)
  | _, [] => some []
  | 0, _ :: _ => none
  | fuel + 1, b1 :: rest =>
    if b1 < 0x80 then (decode8 fuel rest).map (fun cs => b1 :: cs)
    else if b1 < 0xC2 then none
    else if b1 < 0xE0 then
      match rest with
      | b2 :: rest2 =>
        if isCont b2 then
          (decode8 fuel rest2).map (fun cs => ((b1 - 0xC0) * 0x40 + (b2 - 0x80)) :: cs)
        else none
      | [] => none
    else if b1 < 0xF0 then
      match rest with
      | b2 :: b3 :: rest3 =>
        if isCont b2 && isCont b3 &&
            0x800 ≤ (b1 - 0xE0) * 0x1000 + (b2 - 0x80) * 0x40 + (b3 - 0x80) &&
            isScalar ((b1 - 0xE0) * 0x1000 + (b2 - 0x80) * 0x40 + (b3 - 0x80)) then
          (decode8 fuel rest3).map
            (fun cs => ((b1 - 0xE0) * 0x1000 + (b2 - 0x80) * 0x40 + (b3 - 0x80)) :: cs)
        else none
      | _ => none
    else if b1 < 0xF5 then
      match rest with
      | b2 :: b3 :: b4 :: rest4 =>
        if isCont b2 && isCont b3 && isCont b4 &&
            0x10000 ≤ (b1 - 0xF0) * 0x40000 + (b2 - 0x80) * 0x1000 + (b3 - 0x80) * 0x40 +
              (b4 - 0x80) &&
            (b1 - 0xF0) * 0x40000 + (b2 - 0x80) * 0x1000 + (b3 - 0x80) * 0x40 +
              (b4 - 0x80) < 0x110000 then
          (decode8 fuel rest4).map
            (fun cs => ((b1 - 0xF0) * 0x40000 + (b2 - 0x80) * 0x1000 + (b3 - 0x80) * 0x40 +
              (b4 - 0x80)) :: cs)
        else none
      | _ => none
    else none

/-- What a conversion hands back: the units written to the destination, the
length the whole output needs (`*pDestLength`), and the status. -/
structure Converted where
  dest : List Nat
  destLength : Nat
  err : UErrorCode
deriving DecidableEq, Repr

/-- Modelled from the spec: the source string of a conversion: the units before
the first NUL when `srcLength` is -1, else the first `srcLength` units. -/
def srcUnits (src : List Nat) (srcLength : Int) : List Nat :=
  if srcLength = -1 then src.takeWhile (fun u => u != 0) else src.take srcLength.toNat

/-- Modelled from the spec: the end of every conversion.  The destination gets
as much of the output as fits; the length reported is that of the whole output;
the status is `U_BUFFER_OVERFLOW_ERROR` when the output does not fit,
`U_STRING_NOT_TERMINATED_WARNING` when it fits exactly, else unchanged.
Ill-formed input gives `U_INVALID_CHAR_FOUND`. -/
def deliver (output : Option (List Nat)) (destCapacity : Nat) (err : UErrorCode) : Converted :=
  match output with
  | none => { dest := [], destLength := 0, err := U_INVALID_CHAR_FOUND }
  | some units =>
    { dest := units.take destCapacity
      destLength := units.length
      err :=
        if destCapacity < units.length then U_BUFFER_OVERFLOW_ERROR
        else if destCapacity = units.length then U_STRING_NOT_TERMINATED_WARNING
        else err }

/-- Modelled from the spec: the entry of every conversion: nothing is done under
a failure status, and a source length below -1 is an illegal argument. -/
def convert (transform : List Nat → Option (List Nat)) (destCapacity : Nat)
    (src : List Nat) (srcLength : Int) (err : UErrorCode) : Converted :=
  if U_FAILURE err then { dest := [], destLength := 0, err := err }
  else if srcLength < -1 then { dest := [], destLength := 0, err := U_ILLEGAL_ARGUMENT_ERROR }
  else deliver (transform (srcUnits src srcLength)) destCapacity err

/-- Modelled from the spec: `u_strToUTF32`, from UTF-16 to UTF-32. -/
def u_strToUTF32 (destCapacity : Nat) (src : List Nat) (srcLength : Int)
    (err : UErrorCode) : Converted :=
  convert decode16 destCapacity src srcLength err

/-- Modelled from the spec: `u_strFromUTF32`, from UTF-32 to UTF-16. -/
def u_strFromUTF32 (destCapacity : Nat) (src : List Nat) (srcLength : Int)
    (err : UErrorCode) : Converted :=
  convert (encodeAll encode16One) destCapacity src srcLength err

/-- Modelled from the spec: `u_strToUTF8`, from UTF-16 to UTF-8. -/
def u_strToUTF8 (destCapacity : Nat) (src : List Nat) (srcLength : Int)
    (err : UErrorCode) : Converted :=
  convert (fun s => (decode16 s).bind (encodeAll encode8One)) destCapacity src srcLength err

/-- Modelled from the spec: `u_strFromUTF8`, from UTF-8 to UTF-16. -/
def u_strFromUTF8 (destCapacity : Nat) (src : List Nat) (srcLength : Int)
    (err : UErrorCode) : Converted :=
  convert (fun s => (decode8 s.length s).bind (encodeAll encode16One)) destCapacity src
    srcLength err

/-- The round trip of the test `Test_UChar_UTF8_API`: a preflight of
`u_strToUTF8` with capacity 0, the conversion into a buffer of the preflighted
size, then the same two calls of `u_strFromUTF8` on the result. -/
def roundTripUTF8 (src : List Nat) (srcLength : Int) : Converted :=
  let pre8 := u_strToUTF8 0 src srcLength U_ZERO_ERROR
  let to8 := u_strToUTF8 pre8.destLength src srcLength U_ZERO_ERROR
  let pre16 := u_strFromUTF8 0 to8.dest to8.destLength U_ZERO_ERROR
  u_strFromUTF8 pre16.destLength to8.dest to8.destLength U_ZERO_ERROR

/-- The round trip of the test `Test_UChar_UTF32_API`, UTF-16 to UTF-32 and back:
each conversion is preflighted with capacity 0 and then run into a buffer of
the preflighted size plus one. -/
def roundTripUTF32 (src : List Nat) (srcLength : Int) : Converted :=
  let pre32 := u_strToUTF32 0 src srcLength U_ZERO_ERROR
  let to32 := u_strToUTF32 (pre32.destLength + 1) src srcLength U_ZERO_ERROR
  let pre16 := u_strFromUTF32 0 to32.dest to32.destLength U_ZERO_ERROR
  u_strFromUTF32 (pre16.destLength + 1) to32.dest to32.destLength U_ZERO_ERROR

end Ustrtrn

namespace Coll

/-! ## Status lemmas -/

theorem failure_of_success {status : UErrorCode} (h : U_SUCCESS status = true) :
    U_FAILURE status = false := by
  simp only [U_SUCCESS, U_FAILURE, U_ZERO_ERROR, decide_eq_true_eq, decide_eq_false_iff_not] at *
  exact not_lt.mpr h

theorem success_of_not_failure {status : UErrorCode} (h : U_FAILURE status = false) :
    U_SUCCESS status = true := by
  simp only [U_SUCCESS, U_FAILURE, U_ZERO_ERROR, decide_eq_true_eq, decide_eq_false_iff_not] at *
  exact not_lt.mp h

/-! ## Fallback lemmas -/

theorem truncateLast_length {cs r : List Char} (h : truncateLast cs = some r) :
    r.length < cs.length := by
  induction cs generalizing r with
  | nil => simp [truncateLast] at h
  | cons c rest ih =>
    simp only [truncateLast] at h
    cases hr : truncateLast rest with
    | some r1 =>
      rw [hr] at h
      simp only [Option.some.injEq] at h
      have := ih hr
      subst h
      simp only [List.length_cons]
      omega
    | none =>
      rw [hr] at h
      by_cases hc : c = '_'
      · simp only [hc, if_true, Option.some.injEq] at h
        subst h
        simp
      · simp [hc] at h

theorem fallback_primaryID {key k : LocaleKey} (h : key.fallback = some k) :
    k.primaryID = key.primaryID := by
  unfold LocaleKey.fallback at h
  split at h
  · simp only [Option.some.injEq] at h
    subst h
    rfl
  · split at h
    · simp only [Option.some.injEq] at h
      subst h
      rfl
    · split at h
      · simp only [Option.some.injEq] at h
        subst h
        rfl
      · simp at h

theorem fallback_bound_lt {key k : LocaleKey} (h : key.fallback = some k) :
    k.fallbackBound < key.fallbackBound := by
  unfold LocaleKey.fallback at h
  split at h
  · rename_i shorter hs
    simp only [Option.some.injEq] at h
    subst h
    have := truncateLast_length hs
    simp only [LocaleKey.fallbackBound]
    omega
  · split at h
    · rename_i d hd
      simp only [Option.some.injEq] at h
      subst h
      simp only [LocaleKey.fallbackBound, hd]
      omega
    · rename_i hd
      split at h
      · rename_i hne
        simp only [Option.some.injEq] at h
        subst h
        have : 0 < key.currentID.data.length := List.length_pos.mpr hne
        simp only [LocaleKey.fallbackBound, hd]
        simp
        exact this
      · simp at h

theorem fallbackN_primaryID {n : Nat} {key k : LocaleKey}
    (h : LocaleKey.fallbackN n key = some k) : k.primaryID = key.primaryID := by
  induction n generalizing key with
  | zero =>
    simp only [LocaleKey.fallbackN, Option.some.injEq] at h
    rw [h]
  | succ n ih =>
    simp only [LocaleKey.fallbackN] at h
    cases hf : key.fallback with
    | none => rw [hf] at h; simp at h
    | some k1 =>
      rw [hf] at h
      rw [ih h, fallback_primaryID hf]

/-- The search leaves the key's canonical identifier alone. -/
theorem resolve_primaryID (env : Env) (fs : List (URegistryKey × ServiceFactory))
    (fuel : Nat) (key : LocaleKey) (status : UErrorCode) :
    (resolve env fs fuel key status).2.2.primaryID = key.primaryID := by
  induction fuel generalizing key status with
  | zero => rfl
  | succ n ih =>
    simp only [resolve]
    split
    · rfl
    · split
      · rfl
      · split
        · rename_i k hk
          rw [ih, fallback_primaryID hk]
        · rfl

/-- Fuel beyond the key's fallback bound does not change the search: the bound
plus one is enough for the search to end by itself. -/
theorem resolve_fuel (env : Env) (fs : List (URegistryKey × ServiceFactory))
    (fuel1 fuel2 : Nat) (key : LocaleKey) (status : UErrorCode)
    (h1 : key.fallbackBound < fuel1) (h2 : key.fallbackBound < fuel2) :
    resolve env fs fuel1 key status = resolve env fs fuel2 key status := by
  induction fuel1 generalizing fuel2 key status with
  | zero => omega
  | succ n ih =>
    cases fuel2 with
    | zero => omega
    | succ m =>
      simp only [resolve]
      split
      · rfl
      · split
        · rfl
        · split
          · rename_i k hk
            have := fallback_bound_lt hk
            exact ih m k _ (by omega) (by omega)
          · rfl

theorem getKeyChain_primaryID (env : Env) (s : ICUCollatorService) (key : LocaleKey)
    (actualReturn : String) (status : UErrorCode) :
    (ICULocaleService.getKeyChain env s key actualReturn status).key.primaryID =
      key.primaryID := by
  unfold ICULocaleService.getKeyChain
  split
  · rfl
  · have h := resolve_primaryID env s.factories (key.fallbackBound + 1) key status
    split
    · rename_i heq
      rw [heq] at h
      exact h
    · rename_i heq
      rw [heq] at h
      exact h

theorem getKey_base_primaryID (env : Env) (s : ICUCollatorService) (key : LocaleKey)
    (actualReturn : String) (status : UErrorCode) :
    (ICULocaleService.getKey env s key actualReturn status).key.primaryID = key.primaryID := by
  unfold ICULocaleService.getKey
  split
  · rfl
  · exact getKeyChain_primaryID env s key actualReturn status

/-! ## Resolution through a chain of one adapter and the built-in factory -/

/-- C2.  For every locale and success status, when `hasService()` is false,
`createInstance` returns what `makeInstance` returns, with the same final
status, and leaves the globals as they were: the registry is not constructed. -/
theorem createInstance_bypass (env : Env) (desiredLocale : Locale) (status : UErrorCode)
    (g : Globals) (hs : U_SUCCESS status = true) (hn : hasService g = false) :
    createInstance env desiredLocale status g =
        ((makeInstance env desiredLocale status).1, (makeInstance env desiredLocale status).2, g) ∧
      hasService (createInstance env desiredLocale status g).2.2 = false := by
  have hg : g.gService = none := by
    cases h : g.gService with
    | none => rfl
    | some s => simp [hasService, h] at hn
  have heq : createInstance env desiredLocale status g =
      ((makeInstance env desiredLocale status).1,
        (makeInstance env desiredLocale status).2, g) := by
    simp [createInstance, failure_of_success hs, hg]
  exact ⟨heq, by rw [heq]; exact hn⟩

/-- C2 at a concrete input: `fr_FR` at program start. -/
theorem createInstance_bypass_witness :
    U_SUCCESS U_ZERO_ERROR = true ∧ hasService Globals.initial = false ∧
      createInstance (sampleEnv true) "fr_FR" U_ZERO_ERROR Globals.initial =
        ((makeInstance (sampleEnv true) "fr_FR" U_ZERO_ERROR).1,
          (makeInstance (sampleEnv true) "fr_FR" U_ZERO_ERROR).2, Globals.initial) ∧
      hasService (createInstance (sampleEnv true) "fr_FR" U_ZERO_ERROR Globals.initial).2.2 =
        false :=
  ⟨by decide, by decide,
    createInstance_bypass (sampleEnv true) "fr_FR" U_ZERO_ERROR Globals.initial
      (by decide) (by decide)⟩

/-! ## C3: the requested and valid locales -/

/-- An instance found by the search comes with the candidate at which the search
stopped; that candidate is reached from the key by fallback, and it is the
candidate for which the walk of the chain produced the instance. -/
theorem resolve_some (env : Env) (fs : List (URegistryKey × ServiceFactory)) :
    ∀ (fuel : Nat) (key : LocaleKey) (status : UErrorCode) (c : Collator) (id : String)
      (st : UErrorCode) (k2 : LocaleKey),
      resolve env fs fuel key status = (some (c, id), st, k2) →
      id = k2.currentID ∧ (∃ n, LocaleKey.fallbackN n key = some k2) ∧
        ∃ st0, walkFactories env fs k2 st0 = (some c, st) := by
  intro fuel
  induction fuel with
  | zero =>
    intro key status c id st k2 h
    simp [resolve] at h
  | succ m ih =>
    intro key status c id st k2 h
    simp only [resolve] at h
    split at h
    · rename_i c0 st0 hwalk
      simp only [Prod.mk.injEq, Option.some.injEq] at h
      obtain ⟨⟨hc, hid⟩, hst, hkey⟩ := h
      subst hkey hc hst
      exact ⟨hid.symm, ⟨0, rfl⟩, status, hwalk⟩
    · split at h
      · simp at h
      · split at h
        · rename_i k1 hk1
          obtain ⟨hid, ⟨n, hn⟩, hw⟩ := ih k1 _ c id st k2 h
          exact ⟨hid, ⟨n + 1, by simp only [LocaleKey.fallbackN, hk1]; exact hn⟩, hw⟩
        · simp at h

/-- What `ICUCollatorService::getKey` adds to the lookup of its base class: a
non-null result goes through `setLocales` with the key's canonical locale and
the locale named by `actualReturn` as the lookup left it (the local string when
the caller passed none); a null result, the status, `actualReturn` and the
service are passed on. -/
theorem getKey_setLocales (env : Env) (s : ICUCollatorService) (key : LocaleKey)
    (actualReturn : Option String) (status : UErrorCode) :
    (ICUCollatorService.getKey env s key actualReturn status).result =
        (ICULocaleService.getKey env s key (actualReturn.getD "") status).result.map
          (fun c => c.setLocales key.canonicalLocale
            (initLocaleFromName
              (ICULocaleService.getKey env s key (actualReturn.getD "") status).actualReturn)) ∧
      (ICUCollatorService.getKey env s key actualReturn status).actualReturn =
        (ICULocaleService.getKey env s key (actualReturn.getD "") status).actualReturn ∧
      (ICUCollatorService.getKey env s key actualReturn status).status =
        (ICULocaleService.getKey env s key (actualReturn.getD "") status).status ∧
      (ICUCollatorService.getKey env s key actualReturn status).service =
        (ICULocaleService.getKey env s key (actualReturn.getD "") status).service := by
  have hbuf : (match actualReturn with
      | none => ""
      | some a => a) = actualReturn.getD "" := by
    cases actualReturn <;> rfl
  have hprim := getKey_base_primaryID env s key (actualReturn.getD "") status
  have hout : ICUCollatorService.getKey env s key actualReturn status =
      match (ICULocaleService.getKey env s key (actualReturn.getD "") status).result with
      | some result =>
        { ICULocaleService.getKey env s key (actualReturn.getD "") status with
          result := some (result.setLocales key.canonicalLocale
            (initLocaleFromName
              (ICULocaleService.getKey env s key (actualReturn.getD "") status).actualReturn)) }
      | none => ICULocaleService.getKey env s key (actualReturn.getD "") status := by
    simp only [ICUCollatorService.getKey, hbuf, LocaleKey.canonicalLocale, hprim]
  rw [hout]
  cases hr : (ICULocaleService.getKey env s key (actualReturn.getD "") status).result with
  | none => exact ⟨by simp [hr], rfl, rfl, rfl⟩
  | some c => exact ⟨by simp, rfl, rfl, rfl⟩

/-- Off the `isDefault` path the lookup writes to `actualReturn` the identifier it
satisfied: the canonical identifier on a cache hit, else the fallback candidate
for which the walk of the chain produced the instance. -/
theorem getKeyChain_actualReturn (env : Env) (s : ICUCollatorService) (key : LocaleKey)
    (actualReturn : String) (status : UErrorCode) (c : Collator)
    (hres : (ICULocaleService.getKeyChain env s key actualReturn status).result = some c) :
    (cacheGet s.serviceCache key.primaryID = some c ∧
        (ICULocaleService.getKeyChain env s key actualReturn status).actualReturn =
          key.primaryID) ∨
      ∃ n k st0,
        LocaleKey.fallbackN n key = some k ∧
        (ICULocaleService.getKeyChain env s key actualReturn status).actualReturn =
          k.currentID ∧
        walkFactories env s.factories k st0 =
          (some c, (ICULocaleService.getKeyChain env s key actualReturn status).status) := by
  unfold ICULocaleService.getKeyChain at hres ⊢
  split at hres
  · rename_i cached hc
    simp only [ICUCollatorService.cloneInstance, Collator.clone, Option.some.injEq] at hres
    subst hres
    left
    simp [hc]
  · rename_i hmiss
    split at hres
    · rename_i c0 id st k heq
      simp only [ICUCollatorService.cloneInstance, Collator.clone, Option.some.injEq] at hres
      subst hres
      obtain ⟨hid, ⟨n, hn⟩, st0, hw⟩ := resolve_some env s.factories _ key status c0 id st k heq
      right
      simp only [hmiss, heq]
      exact ⟨n, k, st0, hn, hid, hw⟩
    · simp at hres

/-- On the `isDefault` path the lookup is `handleDefault`, and `actualReturn` is
the string the caller passed, the empty local string when the caller passed
none: that string, not an identifier the lookup satisfied, names the valid
locale of the collator returned. -/
theorem getKey_default (env : Env) (s : ICUCollatorService) (key : LocaleKey)
    (actualReturn : Option String) (status : UErrorCode) (hd : s.isDefault = true) :
    (ICUCollatorService.getKey env s key actualReturn status).result =
        (makeInstance env key.canonicalLocale status).1.map
          (fun c => c.setLocales key.canonicalLocale
            (initLocaleFromName (actualReturn.getD ""))) ∧
      (ICUCollatorService.getKey env s key actualReturn status).actualReturn =
        actualReturn.getD "" := by
  have hbase : ICULocaleService.getKey env s key (actualReturn.getD "") status =
      { result := (makeInstance env key.canonicalLocale status).1
        actualReturn := actualReturn.getD ""
        status := (makeInstance env key.canonicalLocale status).2
        key := key
        service := s } := by
    simp [ICULocaleService.getKey, hd, ICUCollatorService.handleDefault]
  obtain ⟨h1, h2, _, _⟩ := getKey_setLocales env s key actualReturn status
  rw [h1, h2, hbase]
  exact ⟨rfl, rfl⟩

/-- C3, the code at the failing input.  The registry exists and holds the built-in
factory alone, so `isDefault()` holds, and the built-in factory handles the
requested identifier `en_US`.  `createInstance` of `en_US` returns a collator
on which `setLocales` was called with requested `en_US` and valid locale the
empty locale: the lookup went through `handleDefault`, which leaves
`actualReturn` unwritten, so `getKey` reads back the empty local string.  With
a string passed by the caller, the valid locale is whatever that string named
before the call. -/
theorem getKey_default_valid_locale :
    hasService (defaultGlobals (sampleEnv false)) = true ∧
    (defaultGlobals (sampleEnv false)).handles = [0] ∧
    (newICUCollatorService 0).isDefault = true ∧
    ICUCollatorFactory.handlesKey (sampleEnv false) (LocaleKey.create "en_US" "en_US")
      U_ZERO_ERROR = true ∧
    (createInstance (sampleEnv false) "en_US" U_ZERO_ERROR
        (defaultGlobals (sampleEnv false))).1 =
      some { rules := 0, recordsLocales := true, requestedLocale := "en_US",
             validLocale := "" } ∧
    (ICUCollatorService.getKey (sampleEnv false) (newICUCollatorService 0)
        (LocaleKey.create "en_US" "en_US") none U_ZERO_ERROR).actualReturn = "" ∧
    (ICUCollatorService.getKey (sampleEnv false) (newICUCollatorService 0)
        (LocaleKey.create "en_US" "en_US") (some "zz") U_ZERO_ERROR).result =
      some { rules := 0, recordsLocales := true, requestedLocale := "en_US",
             validLocale := "zz" } := by
  decide

/-! ## C4: what `create` returns -/

/-- C4, as stated, fails.  The adapter around a factory that declares `xx` but
creates no collator handles the key and still returns null; the built-in
factory, for a key requested as `xx_YY` whose cursor is at `xx`, builds the
collator of the requested locale `xx_YY`, not of the current candidate. -/
theorem create_iff_handles_counterexample :
    ((newCFactory nullFactory true).handlesKey sampleKey U_ZERO_ERROR = true ∧
      ((newCFactory nullFactory true).create sampleKey U_ZERO_ERROR).1 = none) ∧
    (ICUCollatorFactory.handlesKey (sampleEnv true) sampleKey U_ZERO_ERROR = true ∧
      sampleKey.currentLocale = "xx" ∧
      (ICUCollatorFactory.create (sampleEnv true) sampleKey U_ZERO_ERROR).1 =
        some (sampleRuleBased "xx_YY") ∧
      (ICUCollatorFactory.create (sampleEnv true) sampleKey U_ZERO_ERROR).1 ≠
        (makeInstance (sampleEnv true) sampleKey.currentLocale U_ZERO_ERROR).1) := by
  decide

/-- C4, amended.  For every key and status, both factories return null when the
handles-test fails for the key's current candidate, so an instance implies that
the test held.  When the test holds, `CFactory::create` returns what the
delegate's `createCollator` gives for the current candidate, which may be null,
with the status unchanged, and depends on no other part of the key;
`ICUCollatorFactory::create` returns `makeInstance` of the key's canonical
locale. -/
theorem create_handles (env : Env) (f : CFactory) (key : LocaleKey) (status : UErrorCode) :
    ((f.create key status).1 ≠ none → f.handlesKey key status = true) ∧
    (f.handlesKey key status = false → f.create key status = (none, status)) ∧
    (f.handlesKey key status = true →
      f.create key status = (f._delegate.createCollator key.currentLocale, status)) ∧
    (∀ key2 : LocaleKey, key2.currentID = key.currentID →
      f.create key2 status = f.create key status) ∧
    ((ICUCollatorFactory.create env key status).1 ≠ none →
      ICUCollatorFactory.handlesKey env key status = true) ∧
    (ICUCollatorFactory.handlesKey env key status = false →
      ICUCollatorFactory.create env key status = (none, status)) ∧
    (ICUCollatorFactory.handlesKey env key status = true →
      ICUCollatorFactory.create env key status =
        makeInstance env key.canonicalLocale status) := by
  refine ⟨?_, ?_, ?_, ?_, ?_, ?_, ?_⟩
  · intro h
    by_contra hn
    simp [CFactory.create, hn] at h
  · intro h
    simp [CFactory.create, h]
  · intro h
    simp [CFactory.create, h]
  · intro key2 h
    simp [CFactory.create, CFactory.handlesKey, LocaleKey.currentLocale, h]
  · intro h
    by_contra hn
    simp [ICUCollatorFactory.create, hn] at h
  · intro h
    simp [ICUCollatorFactory.create, h]
  · intro h
    simp [ICUCollatorFactory.create, h]

/-- C4, amended, at a concrete input: the key requested as `xx_YY` with the
cursor at `xx`, the sample adapter and the built-in factory supporting all. -/
theorem create_handles_witness :
    (newCFactory (sampleFactory 1) true).handlesKey sampleKey U_ZERO_ERROR = true ∧
    ICUCollatorFactory.handlesKey (sampleEnv true) sampleKey U_ZERO_ERROR = true ∧
    (newCFactory (sampleFactory 1) true).create sampleKey U_ZERO_ERROR =
      ((newCFactory (sampleFactory 1) true)._delegate.createCollator sampleKey.currentLocale,
        U_ZERO_ERROR) ∧
    ICUCollatorFactory.create (sampleEnv true) sampleKey U_ZERO_ERROR =
      makeInstance (sampleEnv true) sampleKey.canonicalLocale U_ZERO_ERROR :=
  ⟨by decide, by decide,
    (create_handles (sampleEnv true) (newCFactory (sampleFactory 1) true) sampleKey
      U_ZERO_ERROR).2.2.1 (by decide),
    (create_handles (sampleEnv true) (newCFactory (sampleFactory 1) true) sampleKey
      U_ZERO_ERROR).2.2.2.2.2.2 (by decide)⟩

/-! ## C5: unregistering an unknown handle -/

/-- C5, as stated, fails.  At program start the registry does not exist;
`unregister` with a success status returns FALSE and sets the status to
`U_ILLEGAL_ARGUMENT_ERROR`, a failure. -/
theorem unregister_unknown_counterexample :
    hasService Globals.initial = false ∧ U_SUCCESS U_ZERO_ERROR = true ∧
    (unregister 0 U_ZERO_ERROR Globals.initial).1 = false ∧
    (unregister 0 U_ZERO_ERROR Globals.initial).2.1 = U_ILLEGAL_ARGUMENT_ERROR ∧
    U_SUCCESS (unregister 0 U_ZERO_ERROR Globals.initial).2.1 = false := by
  decide

/-- C5, amended.  For every handle that no factory of the chain carries, and every
success status, `unregister` returns FALSE and leaves the globals as they were.
When the registry exists the status is unchanged; when it was never constructed
the status on return is `U_ILLEGAL_ARGUMENT_ERROR`. -/
theorem unregister_unknown (key : URegistryKey) (status : UErrorCode) (g : Globals)
    (hs : U_SUCCESS status = true)
    (hunknown : ∀ s, g.gService = some s → ∀ p ∈ s.factories, p.1 ≠ key) :
    (unregister key status g).1 = false ∧
      (unregister key status g).2.1 =
        (if hasService g then status else U_ILLEGAL_ARGUMENT_ERROR) ∧
      (unregister key status g).2.2 = g := by
  cases hg : g.gService with
  | none => simp [unregister, hs, hg, hasService]
  | some s =>
    have hany : (s.factories.any fun p => p.1 == key) = false := by
      rw [List.any_eq_false]
      intro p hp
      simpa using hunknown s hg p hp
    have hgg : ({ g with gService := some s } : Globals) = g := by
      cases g
      simp only [Globals.mk.injEq, and_true]
      exact hg.symm
    simp [unregister, hs, hg, hasService, ICUCollatorService.unregister, hany, hgg]

/-- C5, amended, at a concrete input: handle 7 on the sample registry, whose
factories sit at the addresses 0 and 1. -/
theorem unregister_unknown_witness :
    U_SUCCESS U_ZERO_ERROR = true ∧ hasService sampleGlobals = true ∧
    (unregister 7 U_ZERO_ERROR sampleGlobals).1 = false ∧
    (unregister 7 U_ZERO_ERROR sampleGlobals).2.1 =
      (if hasService sampleGlobals then U_ZERO_ERROR else U_ILLEGAL_ARGUMENT_ERROR) ∧
    (unregister 7 U_ZERO_ERROR sampleGlobals).2.2 = sampleGlobals :=
  ⟨by decide, by decide,
    unregister_unknown 7 U_ZERO_ERROR sampleGlobals (by decide)
      (by
        intro s hs p hp
        have h0 : sampleGlobals.gService = some sampleService := rfl
        rw [h0] at hs
        have hs1 : s = sampleService := (Option.some.inj hs).symm
        subst hs1
        simp only [sampleService, List.mem_cons, List.mem_singleton, List.not_mem_nil,
          or_false] at hp
        rcases hp with rfl | rfl <;> decide)⟩

/-! ## Registration: the state after `registerFactory` -/

/-- A successful `registerFactory` in full: the handle is the adapter's address,
the status is unchanged, and the service is the one `getService` gives, with
the adapter in front of its chain and an empty cache. -/
theorem registerFactory_eq (F : CollatorFactory) (status : UErrorCode) (tableAlloc : Bool)
    (g : Globals) (hs : U_SUCCESS status = true) :
    registerFactory F status true tableAlloc g =
      (some g.nextAddr, status,
        { gService := some
            { factories := (g.nextAddr, ServiceFactory.adapter (newCFactory F tableAlloc)) ::
                (getService { g with nextAddr := g.nextAddr + 1 }).1.factories
              serviceCache := [] }
          nextAddr := (getService { g with nextAddr := g.nextAddr + 1 }).2.nextAddr }) := by
  simp [registerFactory, hs, ICUCollatorService.registerFactory]

/-- The chain `getService` gives is the existing one, or the built-in factory
alone when the registry has to be constructed. -/
theorem getService_factories (g : Globals) :
    (getService g).1.factories =
      match g.gService with
      | some s => s.factories
      | none => [(g.nextAddr, ServiceFactory.builtin)] := by
  cases hg : g.gService with
  | none => simp [getService, hg, newICUCollatorService, ICUCollatorService.registerFactory]
  | some s => simp [getService, hg]

theorem getService_hasService (g : Globals) : hasService (getService g).2 = true := by
  cases hg : g.gService with
  | none => simp [getService, hg, hasService]
  | some s => simp [getService, hg, hasService]

/-- No factory of the chain sits at the address the next `new` hands out. -/
theorem chain_addr_fresh (g : Globals) (hwf : g.wf) :
    ∀ p ∈ (getService { g with nextAddr := g.nextAddr + 1 }).1.factories,
      p.1 ≠ g.nextAddr := by
  intro p hp
  rw [getService_factories] at hp
  cases hg : g.gService with
  | none =>
    simp only [hg, List.mem_singleton] at hp
    subst hp
    simp
  | some s =>
    simp only [hg] at hp
    exact Nat.ne_of_lt (hwf s hg p hp)

/-! The invariant holds at program start and is kept by every operation. -/

theorem wf_initial : Globals.initial.wf := by
  intro s hs
  simp [Globals.initial] at hs

theorem wf_registerFactory (F : CollatorFactory) (status : UErrorCode)
    (adapterAlloc tableAlloc : Bool) (g : Globals) (hwf : g.wf) :
    (registerFactory F status adapterAlloc tableAlloc g).2.2.wf := by
  by_cases hs : U_SUCCESS status = true
  · cases adapterAlloc with
    | false => simpa [registerFactory, hs] using hwf
    | true =>
      rw [registerFactory_eq F status tableAlloc g hs]
      intro s hs1 p hp
      simp only [Option.some.injEq] at hs1
      subst hs1
      simp only [List.mem_cons] at hp
      cases hg : g.gService with
      | none =>
        simp only [getService, hg, newICUCollatorService,
          ICUCollatorService.registerFactory, List.mem_singleton] at hp ⊢
        rcases hp with rfl | rfl
        · show g.nextAddr < g.nextAddr + 1 + 1
          omega
        · show g.nextAddr + 1 < g.nextAddr + 1 + 1
          omega
      | some s0 =>
        simp only [getService, hg] at hp ⊢
        rcases hp with rfl | hp
        · simp
        · exact Nat.lt_succ_of_lt (hwf s0 hg p hp)
  · simpa [registerFactory, hs] using hwf

theorem wf_unregister (key : URegistryKey) (status : UErrorCode) (g : Globals) (hwf : g.wf) :
    (unregister key status g).2.2.wf := by
  by_cases hs : U_SUCCESS status = true
  · cases hg : g.gService with
    | none => simpa [unregister, hs, hg] using hwf
    | some s0 =>
      intro s hs1 p hp
      simp only [unregister, hs, hg, if_true, Option.some.injEq] at hs1 hp ⊢
      subst hs1
      simp only [ICUCollatorService.unregister] at hp
      split at hp
      · exact hwf s0 hg p (List.mem_of_mem_eraseP hp)
      · exact hwf s0 hg p hp
  · simpa [unregister, hs] using hwf

theorem getKey_factories (env : Env) (s : ICUCollatorService) (key : LocaleKey)
    (actualReturn : Option String) (status : UErrorCode) :
    (ICUCollatorService.getKey env s key actualReturn status).service.factories =
      s.factories := by
  have hchain : ∀ ar, (ICULocaleService.getKeyChain env s key ar status).service.factories =
      s.factories := by
    intro ar
    unfold ICULocaleService.getKeyChain
    split
    · rfl
    · split <;> rfl
  have hbase : ∀ ar, (ICULocaleService.getKey env s key ar status).service.factories =
      s.factories := by
    intro ar
    unfold ICULocaleService.getKey
    split
    · rfl
    · exact hchain ar
  unfold ICUCollatorService.getKey
  simp only
  split <;> exact hbase _

theorem wf_createInstance (env : Env) (desiredLocale : Locale) (status : UErrorCode)
    (g : Globals) (hwf : g.wf) : (createInstance env desiredLocale status g).2.2.wf := by
  unfold createInstance
  split
  · exact hwf
  · split
    · rename_i s0 hg
      intro s hs p hp
      simp only [Option.some.injEq] at hs
      subst hs
      rw [ICUCollatorService.get, getKey_factories] at hp
      exact hwf s0 hg p hp
    · exact hwf

theorem wf_cleanup (g : Globals) : (collator_cleanup g).2.wf := by
  intro s hs
  simp [collator_cleanup] at hs

/-! ## C7: what `registerFactory` does -/

/-- C7, as stated, fails.  When `new CFactory(toAdopt)` gives no object, a call with
a success status returns no handle, sets `U_MEMORY_ALLOCATION_ERROR`, and does
not construct the registry: `hasService()` is still false afterwards. -/
theorem registerFactory_counterexample :
    U_SUCCESS U_ZERO_ERROR = true ∧
    (registerFactory (sampleFactory 1) U_ZERO_ERROR false true Globals.initial).1 = none ∧
    (registerFactory (sampleFactory 1) U_ZERO_ERROR false true Globals.initial).2.1 =
      U_MEMORY_ALLOCATION_ERROR ∧
    hasService (registerFactory (sampleFactory 1) U_ZERO_ERROR false true
      Globals.initial).2.2 = false := by
  decide

/-- C7, amended.  For every caller factory and success status, when the adapter
can be allocated `registerFactory` returns the adapter's address as handle and
leaves the status unchanged; the registry then exists, its chain is the one
adapter around the caller's factory followed by the chain as it was (the
built-in factory alone when the registry had to be constructed), and its cache
is empty.  When the adapter cannot be allocated the call returns no handle,
sets `U_MEMORY_ALLOCATION_ERROR` and leaves the globals as they were. -/
theorem registerFactory_front (F : CollatorFactory) (status : UErrorCode) (tableAlloc : Bool)
    (g : Globals) (hs : U_SUCCESS status = true) :
    (registerFactory F status true tableAlloc g).1 = some g.nextAddr ∧
    (registerFactory F status true tableAlloc g).2.1 = status ∧
    hasService (registerFactory F status true tableAlloc g).2.2 = true ∧
    (∃ s1, (registerFactory F status true tableAlloc g).2.2.gService = some s1 ∧
      s1.serviceCache = [] ∧
      s1.factories = (g.nextAddr, ServiceFactory.adapter (newCFactory F tableAlloc)) ::
        (match g.gService with
         | some s => s.factories
         | none => [(g.nextAddr + 1, ServiceFactory.builtin)]) ∧
      (newCFactory F tableAlloc)._delegate = F) ∧
    registerFactory F status false tableAlloc g = (none, U_MEMORY_ALLOCATION_ERROR, g) := by
  rw [registerFactory_eq F status tableAlloc g hs]
  refine ⟨rfl, rfl, rfl, ⟨_, rfl, rfl, ?_, rfl⟩, ?_⟩
  · rw [getService_factories]
  · simp [registerFactory, hs]

/-- C7, amended, at a concrete input: the sample factory at program start. -/
theorem registerFactory_front_witness :
    U_SUCCESS U_ZERO_ERROR = true ∧
    (registerFactory (sampleFactory 1) U_ZERO_ERROR true true Globals.initial).1 = some 0 ∧
    hasService (registerFactory (sampleFactory 1) U_ZERO_ERROR true true
      Globals.initial).2.2 = true :=
  ⟨by decide,
    (registerFactory_front (sampleFactory 1) U_ZERO_ERROR true Globals.initial (by decide)).1,
    (registerFactory_front (sampleFactory 1) U_ZERO_ERROR true Globals.initial
      (by decide)).2.2.1⟩

/-! ## C8: display names through the registry -/

theorem find_declares_unique (env : Env) (id : String)
    (pre post : List (URegistryKey × ServiceFactory)) (p : URegistryKey × ServiceFactory)
    (hp : p.2.declares env id = true)
    (hpre : ∀ q ∈ pre, q.2.declares env id = false) :
    (pre ++ p :: post).find? (fun q => q.2.declares env id) = some p := by
  induction pre with
  | nil => simp [hp]
  | cons q rest ih =>
    have hq : q.2.declares env id = false := hpre q (List.mem_cons_self q rest)
    simp only [List.cons_append, List.find?_cons, hq]
    exact ih (fun r hr => hpre r (List.mem_cons_of_mem q hr))

theorem find_declares_none (env : Env) (id : String)
    (fs : List (URegistryKey × ServiceFactory))
    (h : ∀ q ∈ fs, q.2.declares env id = false) :
    fs.find? (fun q => q.2.declares env id) = none := by
  rw [List.find?_eq_none]
  intro q hq
  simp [h q hq]

/-- C8.  When the registry exists and exactly one factory of its chain is visible
and declares the object identifier, `getDisplayName` returns the name that
factory gives; for an adapter that is the name its delegate gives for the
locale of the identifier.  When no factory declares the identifier, or the
registry was never constructed, it returns the generic name
`objectLocale.getDisplayName(displayLocale)`, which is not bogus. -/
theorem getDisplayName_routes (env : Env) (objectLocale displayLocale : Locale) (g : Globals) :
    (∀ (s : ICUCollatorService) (pre post : List (URegistryKey × ServiceFactory))
        (p : URegistryKey × ServiceFactory),
      g.gService = some s → s.factories = pre ++ p :: post →
      p.2.declares env objectLocale = true →
      (∀ q ∈ pre ++ post, q.2.declares env objectLocale = false) →
      getDisplayName env objectLocale displayLocale g =
          p.2.getDisplayName env objectLocale displayLocale ∧
        ∀ a, p.2 = ServiceFactory.adapter a →
          getDisplayName env objectLocale displayLocale g =
            a._delegate.getDisplayName env (initLocaleFromName objectLocale) displayLocale) ∧
    ((∀ s, g.gService = some s → ∀ q ∈ s.factories, q.2.declares env objectLocale = false) →
      getDisplayName env objectLocale displayLocale g =
        some (env.localeDisplayName objectLocale displayLocale)) ∧
    (hasService g = false →
      getDisplayName env objectLocale displayLocale g =
        some (env.localeDisplayName objectLocale displayLocale)) := by
  refine ⟨?_, ?_, ?_⟩
  · intro s pre post p hg hfs hp hothers
    have hfind := find_declares_unique env objectLocale pre post p hp
      (fun q hq => hothers q (List.mem_append_left post hq))
    have hname : getDisplayName env objectLocale displayLocale g =
        p.2.getDisplayName env objectLocale displayLocale := by
      simp only [getDisplayName, hg, ICUCollatorService.getDisplayName, hfs, hfind]
    refine ⟨hname, ?_⟩
    intro a ha
    rw [hname]
    rw [ha] at hp
    simp only [ServiceFactory.declares, Bool.and_eq_true, decide_eq_true_eq] at hp
    obtain ⟨hvis, hdecl⟩ := hp
    rw [ha]
    simp only [ServiceFactory.getDisplayName, CFactory.getDisplayName, hvis, if_true]
    split
    · rename_i ids hids
      rw [hids] at hdecl
      simp only at hdecl
      simp [hdecl]
    · rename_i hids
      rw [hids] at hdecl
      simp at hdecl
  · intro h
    cases hg : g.gService with
    | none => simp [getDisplayName, hg]
    | some s =>
      have hfind := find_declares_none env objectLocale s.factories (h s hg)
      simp [getDisplayName, hg, ICUCollatorService.getDisplayName, hfind, initLocaleFromName]
  · intro h
    cases hg : g.gService with
    | none => simp [getDisplayName, hg]
    | some s => simp [hasService, hg] at h

/-- C8 at concrete inputs: on the sample registry `xx` is declared by the adapter
alone and named by its delegate; `zz` is declared by no factory and gets the
generic name, as does any identifier at program start. -/
theorem getDisplayName_routes_witness :
    getDisplayName (sampleEnv false) "xx" "fr" sampleGlobals =
      (sampleFactory 1).getDisplayName (sampleEnv false) (initLocaleFromName "xx") "fr" ∧
    getDisplayName (sampleEnv false) "zz" "fr" sampleGlobals = some "zz in fr" ∧
    getDisplayName (sampleEnv false) "zz" "fr" Globals.initial = some "zz in fr" :=
  ⟨((getDisplayName_routes (sampleEnv false) "xx" "fr" sampleGlobals).1 sampleService []
      [(1, ServiceFactory.builtin)]
      (0, ServiceFactory.adapter (newCFactory (sampleFactory 1) true)) rfl rfl (by decide)
      (by
        intro q hq
        simp only [List.nil_append, List.mem_singleton] at hq
        subst hq
        decide)).2 (newCFactory (sampleFactory 1) true) rfl,
    (getDisplayName_routes (sampleEnv false) "zz" "fr" sampleGlobals).2.1
      (by
        intro s hs q hq
        have h0 : sampleGlobals.gService = some sampleService := rfl
        rw [h0] at hs
        have hs1 : s = sampleService := (Option.some.inj hs).symm
        subst hs1
        simp only [sampleService, List.mem_cons, List.mem_singleton, List.not_mem_nil,
          or_false] at hq
        rcases hq with rfl | rfl <;> decide),
    (getDisplayName_routes (sampleEnv false) "zz" "fr" Globals.initial).2.2 (by decide)⟩

/-! ## C9: the adapter's display name -/

/-- C9.  For every adapter, identifier and display locale: `CFactory::getDisplayName`
gives the bogus string when the identifier is not in the adapter's declared
set; for a visible adapter and a declared identifier it gives exactly the
delegate's `getDisplayName` for the locale built from the identifier and the
display locale; an invisible adapter gives the bogus string for every
identifier.  An adapter built by the constructor is visible or invisible,
according to the delegate's `visible()`. -/
theorem CFactory_getDisplayName_cases (env : Env) (f : CFactory) (id : String)
    (locale : Locale) :
    (f.declaresID id = false → f.getDisplayName env id locale = none) ∧
    (f._coverage = VISIBLE → f.declaresID id = true →
      f.getDisplayName env id locale =
        f._delegate.getDisplayName env (initLocaleFromName id) locale) ∧
    (f._coverage = INVISIBLE → f.getDisplayName env id locale = none) ∧
    (∀ (delegate : CollatorFactory) (tableAlloc : Bool),
      (newCFactory delegate tableAlloc)._delegate = delegate ∧
      (newCFactory delegate tableAlloc)._coverage =
        (if delegate.visible then VISIBLE else INVISIBLE)) := by
  refine ⟨?_, ?_, ?_, fun _ _ => ⟨rfl, rfl⟩⟩
  · intro h
    unfold CFactory.declaresID at h
    unfold CFactory.getDisplayName CFactory.getSupportedIDs
    cases hids : f._ids with
    | none => simp
    | some t =>
      rw [hids] at h
      simp only at h
      have hsucc : U_SUCCESS U_ZERO_ERROR = true := by decide
      simp [hsucc, h]
  · intro hv h
    unfold CFactory.declaresID at h
    unfold CFactory.getDisplayName CFactory.getSupportedIDs
    cases hids : f._ids with
    | none => rw [hids] at h; simp at h
    | some t =>
      rw [hids] at h
      simp only at h
      have hsucc : U_SUCCESS U_ZERO_ERROR = true := by decide
      simp [hv, VISIBLE, hsucc, h]
  · intro hv
    simp [CFactory.getDisplayName, hv, INVISIBLE]

/-- C9 at a concrete input: the visible sample adapter names `xx` through its
delegate. -/
theorem CFactory_getDisplayName_cases_witness :
    (newCFactory (sampleFactory 1) true)._coverage = VISIBLE ∧
    (newCFactory (sampleFactory 1) true).declaresID "xx" = true ∧
    (newCFactory (sampleFactory 1) true).getDisplayName (sampleEnv false) "xx" "fr" =
      (newCFactory (sampleFactory 1) true)._delegate.getDisplayName (sampleEnv false)
        (initLocaleFromName "xx") "fr" :=
  ⟨by decide, by decide,
    (CFactory_getDisplayName_cases (sampleEnv false) (newCFactory (sampleFactory 1) true)
      "xx" "fr").2.1 (by decide) (by decide)⟩

/-! ## C10: the identifiers an adapter declares -/

theorem contains_iff (l : List String) (x : String) : l.contains x = true ↔ x ∈ l :=
  List.elem_iff

theorem put_keys_mem (t : Hashtable) (id x : String) :
    x ∈ (t.put id).keys ↔ x ∈ t.keys ∨ x = id := by
  by_cases h : id ∈ t.keys
  · have hc : t.keys.contains id = true := (contains_iff _ _).mpr h
    simp only [Hashtable.put, hc, if_true]
    constructor
    · intro hx
      exact Or.inl hx
    · rintro (hx | rfl)
      · exact hx
      · exact h
  · have hc : ¬ t.keys.contains id = true := fun hc => h ((contains_iff _ _).mp hc)
    simp only [Hashtable.put, hc, Bool.false_eq_true, if_false, List.mem_append,
      List.mem_singleton]

theorem put_keys_nodup (t : Hashtable) (id : String) (hn : t.keys.Nodup) :
    (t.put id).keys.Nodup := by
  by_cases h : id ∈ t.keys
  · have hc : t.keys.contains id = true := (contains_iff _ _).mpr h
    simpa only [Hashtable.put, hc, if_true] using hn
  · have hc : ¬ t.keys.contains id = true := fun hc => h ((contains_iff _ _).mp hc)
    simp only [Hashtable.put, hc, Bool.false_eq_true, if_false]
    rw [List.nodup_append]
    refine ⟨hn, List.nodup_singleton id, ?_⟩
    intro a ha hb
    simp only [List.mem_singleton] at hb
    subst hb
    exact h ha

theorem foldl_put_keys (l : List String) (t : Hashtable) :
    (∀ x, x ∈ (l.foldl Hashtable.put t).keys ↔ x ∈ t.keys ∨ x ∈ l) ∧
      (t.keys.Nodup → (l.foldl Hashtable.put t).keys.Nodup) := by
  induction l generalizing t with
  | nil => simp
  | cons id rest ih =>
    obtain ⟨hmem, hnd⟩ := ih (t.put id)
    refine ⟨?_, fun hn => hnd (put_keys_nodup t id hn)⟩
    intro x
    simp only [List.foldl_cons, hmem, put_keys_mem, List.mem_cons]
    tauto

/-- C10, as stated, fails.  When `new Hashtable(status)` gives no object the adapter
has no table: although the caller's factory returned `xx`, the adapter's
`getSupportedIDs` returns null for a success status and the adapter does not
handle a key whose current candidate is `xx`. -/
theorem newCFactory_ids_counterexample :
    (sampleFactory 1).idlist.take (sampleFactory 1).count.toNat = ["xx"] ∧
    U_SUCCESS U_ZERO_ERROR = true ∧
    (newCFactory (sampleFactory 1) false).getSupportedIDs U_ZERO_ERROR = none ∧
    sampleKey.currentID = "xx" ∧
    (newCFactory (sampleFactory 1) false).handlesKey sampleKey U_ZERO_ERROR = false := by
  decide

/-- C10, amended.  For every caller factory whose adapter gets its table: the table
holds exactly the first `count` identifiers the caller's `getSupportedIDs`
returned, each once; the adapter handles a key with a success status exactly
when the key's current candidate is one of them, and handles none with a
failure status; its `getSupportedIDs` returns the table for a success status
and null for a failure status.  An adapter whose table could not be allocated
declares nothing: `getSupportedIDs` returns null and no key is handled. -/
theorem newCFactory_ids (delegate : CollatorFactory) (key : LocaleKey) (status : UErrorCode) :
    (∃ t, (newCFactory delegate true)._ids = some t ∧ t.keys.Nodup ∧
      (∀ id, t.get id = true ↔ id ∈ delegate.idlist.take delegate.count.toNat) ∧
      (newCFactory delegate true).getSupportedIDs status =
        (if U_SUCCESS status then some t else none)) ∧
    ((newCFactory delegate true).handlesKey key status = true ↔
      (U_SUCCESS status = true ∧
        key.currentID ∈ delegate.idlist.take delegate.count.toNat)) ∧
    ((newCFactory delegate false).getSupportedIDs status = none ∧
      (newCFactory delegate false).handlesKey key status = false) := by
  obtain ⟨hmem, hnd⟩ :=
    foldl_put_keys (delegate.idlist.take delegate.count.toNat) Hashtable.empty
  have hget : ∀ id,
      ((delegate.idlist.take delegate.count.toNat).foldl Hashtable.put Hashtable.empty).get id
        = true ↔ id ∈ delegate.idlist.take delegate.count.toNat := by
    intro id
    rw [Hashtable.get, contains_iff, hmem]
    simp [Hashtable.empty]
  refine ⟨⟨_, rfl, hnd (by simp [Hashtable.empty]), hget, rfl⟩, ?_, ?_, ?_⟩
  · by_cases hs : U_SUCCESS status = true
    · simp only [CFactory.handlesKey, CFactory.getSupportedIDs, hs, newCFactory, if_true,
        true_and]
      exact hget key.currentID
    · simp [CFactory.handlesKey, CFactory.getSupportedIDs, hs]
  · simp [CFactory.getSupportedIDs, newCFactory]
  · simp [CFactory.handlesKey, CFactory.getSupportedIDs, newCFactory]

/-- C10, amended, at a concrete input: a caller that returns the list `xx`, `xx`
with `count` 2 gets an adapter whose table holds `xx` once. -/
theorem newCFactory_ids_witness :
    (newCFactory (sampleFactory 2) true)._ids = some { keys := ["xx"] } ∧
    ((newCFactory (sampleFactory 2) true).handlesKey sampleKey U_ZERO_ERROR = true ↔
      (U_SUCCESS U_ZERO_ERROR = true ∧
        sampleKey.currentID ∈ (sampleFactory 2).idlist.take (sampleFactory 2).count.toNat)) :=
  ⟨by decide, (newCFactory_ids (sampleFactory 2) sampleKey U_ZERO_ERROR).2.1⟩

/-! ## C11: invisible adapters take part in resolution -/

theorem not_success_of_failure {status : UErrorCode} (h : U_FAILURE status = true) :
    U_SUCCESS status = false := by
  simp only [U_SUCCESS, U_FAILURE, U_ZERO_ERROR, decide_eq_true_eq, decide_eq_false_iff_not] at *
  exact not_le.mpr h

/-- C11.  The adapter built around a caller's factory is invisible exactly when the
factory's `visible()` returns FALSE.  `CFactory::create` does not look at the
visibility: for every key and status, two adapters built around delegates with
the same `createCollator` and the same identifier list create the same,
whatever their `visible()`, and changing the coverage of an adapter does not
change what it creates. -/
theorem create_ignores_visibility (d1 d2 : CollatorFactory) (tableAlloc : Bool)
    (key : LocaleKey) (status : UErrorCode)
    (hcreate : d1.createCollator = d2.createCollator)
    (hlist : d1.idlist = d2.idlist) (hcount : d1.count = d2.count) :
    ((newCFactory d1 tableAlloc)._coverage = INVISIBLE ↔ d1.visible = false) ∧
    ((newCFactory d1 tableAlloc)._coverage = VISIBLE ↔ d1.visible = true) ∧
    (newCFactory d1 tableAlloc).create key status =
      (newCFactory d2 tableAlloc).create key status ∧
    (∀ (f : CFactory) (coverage : Nat),
      ({ f with _coverage := coverage } : CFactory).create key status =
        f.create key status) := by
  refine ⟨?_, ?_, ?_, fun _ _ => rfl⟩
  · cases hv : d1.visible <;> simp [newCFactory, hv, VISIBLE, INVISIBLE]
  · cases hv : d1.visible <;> simp [newCFactory, hv, VISIBLE, INVISIBLE]
  · simp [CFactory.create, CFactory.handlesKey, CFactory.getSupportedIDs, newCFactory,
      hcreate, hlist, hcount]

/-- C11 at a concrete input: the invisible and the visible sample factory create
the same collator for the key whose cursor is at `xx`. -/
theorem create_ignores_visibility_witness :
    invisibleFactory.visible = false ∧ (sampleFactory 1).visible = true ∧
    (newCFactory invisibleFactory true)._coverage = INVISIBLE ∧
    (newCFactory invisibleFactory true).create sampleKey U_ZERO_ERROR =
      (newCFactory (sampleFactory 1) true).create sampleKey U_ZERO_ERROR ∧
    ((newCFactory invisibleFactory true).create sampleKey U_ZERO_ERROR).1 ≠ none :=
  ⟨by decide, by decide,
    ((create_ignores_visibility invisibleFactory (sampleFactory 1) true sampleKey
      U_ZERO_ERROR rfl rfl rfl).1).mpr (by decide),
    (create_ignores_visibility invisibleFactory (sampleFactory 1) true sampleKey
      U_ZERO_ERROR rfl rfl rfl).2.2.1,
    by decide⟩

/-! ## C12: the registry is constructed lazily and once -/

theorem getService_of_some (g : Globals) (s : ICUCollatorService)
    (hg : g.gService = some s) : getService g = (s, g) := by
  simp [getService, hg]

theorem getService_gService (g : Globals) :
    (getService g).2.gService = some (getService g).1 := by
  cases hg : g.gService with
  | none => simp [getService, hg]
  | some s => simp [getService, hg]

/-- No call takes the registry away. -/
theorem run_hasService (env : Env) (serviceRegister : ServiceRegisterInstance)
    (c : ApiCall) (g : Globals) (h : hasService g = true) :
    hasService (c.run env serviceRegister g) = true := by
  obtain ⟨s, hs⟩ : ∃ s, g.gService = some s := by
    cases hg : g.gService with
    | none => simp [hasService, hg] at h
    | some s => exact ⟨s, rfl⟩
  cases c with
  | createInstance desiredLocale status =>
    simp only [ApiCall.run, createInstance, hs]
    split <;> simp [hasService, hs]
  | createInstanceDefault status =>
    simp only [ApiCall.run, createInstanceDefault, createInstance, hs]
    split
    · simp [hasService, hs]
    · simp [hasService]
  | getDisplayName objectLocale displayLocale => exact h
  | registerInstance toAdopt locale status =>
    simp only [ApiCall.run, registerInstance]
    split <;> simp [hasService, hs]
  | registerFactory toAdopt status adapterAlloc tableAlloc =>
    simp only [ApiCall.run, registerFactory]
    split
    · split <;> simp [hasService, hs]
    · simp [hasService, hs]
  | unregister key status =>
    simp only [ApiCall.run, unregister, hs]
    split <;> simp [hasService, hs]
  | getAvailableLocales =>
    simp only [ApiCall.run, getAvailableLocales]
    exact getService_hasService g

theorem runCalls_hasService (env : Env) (serviceRegister : ServiceRegisterInstance)
    (cs : List ApiCall) (g : Globals) (h : hasService g = true) :
    hasService (runCalls env serviceRegister cs g) = true ∧
      constructions env serviceRegister cs g = 0 := by
  induction cs generalizing g with
  | nil => exact ⟨h, rfl⟩
  | cons c cs ih =>
    have h1 := run_hasService env serviceRegister c g h
    obtain ⟨h2, h3⟩ := ih _ h1
    refine ⟨h2, ?_⟩
    simp [constructions, h, h3]

/-- C12.  In every sequence of calls of the entry points, teardown apart, the
registry is constructed during at most one call.  Once `hasService()` is true
it stays true and no later call constructs a registry.  `getService()`
constructs the registry when there is none, after which `gService` is the
registry it returned, and returns the existing registry with the globals
unchanged when there is one. -/
theorem registry_constructed_once (env : Env) (serviceRegister : ServiceRegisterInstance)
    (cs : List ApiCall) (g : Globals) :
    constructions env serviceRegister cs g ≤ 1 ∧
    (hasService g = true →
      hasService (runCalls env serviceRegister cs g) = true ∧
        constructions env serviceRegister cs g = 0) ∧
    hasService (getService g).2 = true ∧
    (getService g).2.gService = some (getService g).1 ∧
    getService (getService g).2 = ((getService g).1, (getService g).2) ∧
    (∀ s, g.gService = some s → getService g = (s, g)) := by
  refine ⟨?_, runCalls_hasService env serviceRegister cs g, getService_hasService g,
    getService_gService g, getService_of_some _ _ (getService_gService g),
    fun s hs => getService_of_some g s hs⟩
  induction cs generalizing g with
  | nil => simp [constructions]
  | cons c cs ih =>
    by_cases h : hasService g = true
    · have := (runCalls_hasService env serviceRegister (c :: cs) g h).2
      omega
    · by_cases h1 : hasService (c.run env serviceRegister g) = true
      · have h2 := (runCalls_hasService env serviceRegister cs _ h1).2
        simp [constructions, h2]
        split <;> omega
      · have h3 := ih (c.run env serviceRegister g)
        simp only [constructions, h1]
        simp only [Bool.and_false, Bool.false_eq_true, if_false, Nat.zero_add]
        exact h3

/-- C12 at a concrete input: a lookup, a registration, a lookup and a second
registration at program start construct the registry once, during the first
registration. -/
theorem registry_constructed_once_witness :
    constructions (sampleEnv true) sampleServiceRegister
      [ApiCall.createInstance "fr" U_ZERO_ERROR,
        ApiCall.registerFactory (sampleFactory 1) U_ZERO_ERROR true true,
        ApiCall.createInstance "fr" U_ZERO_ERROR,
        ApiCall.registerFactory nullFactory U_ZERO_ERROR true true] Globals.initial = 1 ∧
    hasService sampleGlobals = true ∧
    hasService (runCalls (sampleEnv true) sampleServiceRegister
      [ApiCall.unregister 0 U_ZERO_ERROR, ApiCall.getAvailableLocales] sampleGlobals) = true ∧
    constructions (sampleEnv true) sampleServiceRegister
      [ApiCall.unregister 0 U_ZERO_ERROR, ApiCall.getAvailableLocales] sampleGlobals = 0 :=
  ⟨by decide, by decide,
    (registry_constructed_once (sampleEnv true) sampleServiceRegister
      [ApiCall.unregister 0 U_ZERO_ERROR, ApiCall.getAvailableLocales] sampleGlobals).2.1
      (by decide)⟩

/-! ## C13: the direct construction path returns an instance or fails -/

/-- With a success status and no registry, `createInstance` is `makeInstance`. -/
theorem createInstance_direct (env : Env) (desiredLocale : Locale) (status : UErrorCode)
    (g : Globals) (hs : U_SUCCESS status = true) (hn : hasService g = false) :
    createInstance env desiredLocale status g =
      ((makeInstance env desiredLocale status).1,
        (makeInstance env desiredLocale status).2, g) := by
  have hg : g.gService = none := by
    cases h : g.gService with
    | none => rfl
    | some s => simp [hasService, h] at hn
  simp [createInstance, failure_of_success hs, hg]

theorem alloc_error_failure : U_SUCCESS U_MEMORY_ALLOCATION_ERROR = false := by decide

/-- C13.  For every locale and status, the result of `makeInstance` is non-null
exactly when the status on return is a success; a construction that fails
returns null with the failure status, which is `U_MEMORY_ALLOCATION_ERROR` when
`new` gave no collator and the status the constructor left otherwise.  With a
success status on entry and no registry, `createInstance` returns just that. -/
theorem makeInstance_instance_or_failure (env : Env) (desiredLocale : Locale)
    (status : UErrorCode) (g : Globals) :
    ((makeInstance env desiredLocale status).1 ≠ none ↔
      U_SUCCESS (makeInstance env desiredLocale status).2 = true) ∧
    ((env.newRuleBasedCollator desiredLocale status).1 = none →
      makeInstance env desiredLocale status = (none, U_MEMORY_ALLOCATION_ERROR)) ∧
    (∀ c, (env.newRuleBasedCollator desiredLocale status).1 = some c →
      U_FAILURE (env.newRuleBasedCollator desiredLocale status).2 = true →
      makeInstance env desiredLocale status =
        (none, (env.newRuleBasedCollator desiredLocale status).2)) ∧
    (∀ c, (env.newRuleBasedCollator desiredLocale status).1 = some c →
      U_FAILURE (env.newRuleBasedCollator desiredLocale status).2 = false →
      makeInstance env desiredLocale status =
        (some c, (env.newRuleBasedCollator desiredLocale status).2)) ∧
    (U_SUCCESS status = true → hasService g = false →
      ((createInstance env desiredLocale status g).1 ≠ none ↔
        U_SUCCESS (createInstance env desiredLocale status g).2.1 = true)) := by
  have hmain : (makeInstance env desiredLocale status).1 ≠ none ↔
      U_SUCCESS (makeInstance env desiredLocale status).2 = true := by
    unfold makeInstance
    split
    · simp [alloc_error_failure]
    · rename_i collation status1 _
      by_cases hf : U_FAILURE status1 = true
      · simp [hf, not_success_of_failure hf]
      · have hf1 : U_FAILURE status1 = false := by simpa using hf
        simp [hf1, success_of_not_failure hf1]
  refine ⟨hmain, ?_, ?_, ?_, ?_⟩
  · intro h
    unfold makeInstance
    split
    · rfl
    · rename_i heq
      rw [heq] at h
      simp at h
  · intro c h hf
    unfold makeInstance
    split
    · rename_i heq
      rw [heq] at h
      simp at h
    · rename_i heq
      rw [heq] at hf
      simp [hf, heq]
  · intro c h hf
    unfold makeInstance
    split
    · rename_i heq
      rw [heq] at h
      simp at h
    · rename_i heq
      rw [heq] at hf h
      simp only [Option.some.injEq] at h
      simp [hf, heq, h]
  · intro hs hn
    rw [(createInstance_direct env desiredLocale status g hs hn)]
    exact hmain

/-- C13 at a concrete input: collaborators whose `new` gives no collator. -/
theorem makeInstance_instance_or_failure_witness :
    makeInstance { sampleEnv true with newRuleBasedCollator := fun _ st => (none, st) } "fr"
        U_ZERO_ERROR = (none, U_MEMORY_ALLOCATION_ERROR) ∧
    ((createInstance (sampleEnv true) "fr" U_ZERO_ERROR Globals.initial).1 ≠ none ↔
      U_SUCCESS (createInstance (sampleEnv true) "fr" U_ZERO_ERROR Globals.initial).2.1 =
        true) :=
  ⟨(makeInstance_instance_or_failure
      { sampleEnv true with newRuleBasedCollator := fun _ st => (none, st) } "fr"
      U_ZERO_ERROR Globals.initial).2.1 rfl,
    (makeInstance_instance_or_failure (sampleEnv true) "fr" U_ZERO_ERROR
      Globals.initial).2.2.2.2 (by decide) (by decide)⟩

/-! ## C14: teardown -/

/-- C14.  `collator_cleanup()` returns TRUE and leaves no registry: `hasService()`
is false; `unregister` finds no registration (it returns FALSE for every
handle); `createInstance` with a success status is `makeInstance` again and
does not construct a registry; and the next `getService()` constructs a
registry whose chain is the built-in factory alone, with an empty cache. -/
theorem cleanup_resets (env : Env) (g : Globals) :
    (collator_cleanup g).1 = true ∧
    hasService (collator_cleanup g).2 = false ∧
    (∀ key status, (unregister key status (collator_cleanup g).2).1 = false) ∧
    (∀ desiredLocale status, U_SUCCESS status = true →
      createInstance env desiredLocale status (collator_cleanup g).2 =
        ((makeInstance env desiredLocale status).1,
          (makeInstance env desiredLocale status).2, (collator_cleanup g).2)) ∧
    (getService (collator_cleanup g).2).1.factories =
      [((collator_cleanup g).2.nextAddr, ServiceFactory.builtin)] ∧
    (getService (collator_cleanup g).2).1.serviceCache = [] ∧
    hasService (getService (collator_cleanup g).2).2 = true := by
  refine ⟨rfl, rfl, ?_, ?_, ?_, ?_, ?_⟩
  · intro key status
    simp only [unregister, collator_cleanup]
    split <;> rfl
  · intro desiredLocale status hs
    exact createInstance_direct env desiredLocale status _ hs rfl
  · simp [getService_factories, collator_cleanup]
  · simp [getService, collator_cleanup, newICUCollatorService,
      ICUCollatorService.registerFactory]
  · exact getService_hasService _

/-- C14 at a concrete input: teardown of the sample registry, in which the sample
factory was registered under the handle 0. -/
theorem cleanup_resets_witness :
    (unregister 0 U_ZERO_ERROR sampleGlobals).1 = true ∧
    (unregister 0 U_ZERO_ERROR (collator_cleanup sampleGlobals).2).1 = false ∧
    U_SUCCESS U_ZERO_ERROR = true ∧
    createInstance (sampleEnv false) "xx" U_ZERO_ERROR (collator_cleanup sampleGlobals).2 =
      ((makeInstance (sampleEnv false) "xx" U_ZERO_ERROR).1,
        (makeInstance (sampleEnv false) "xx" U_ZERO_ERROR).2,
        (collator_cleanup sampleGlobals).2) :=
  ⟨by decide,
    (cleanup_resets (sampleEnv false) sampleGlobals).2.2.1 0 U_ZERO_ERROR,
    by decide,
    (cleanup_resets (sampleEnv false) sampleGlobals).2.2.2.1 "xx" U_ZERO_ERROR (by decide)⟩

/-! ## C6: unregistering twice -/

theorem eraseP_handle_not_mem (l : List (URegistryKey × ServiceFactory)) (k : URegistryKey)
    (hnd : (l.map (fun p => p.1)).Nodup) :
    k ∉ (l.eraseP (fun p => p.1 == k)).map (fun p => p.1) := by
  induction l with
  | nil => simp
  | cons p l ih =>
    simp only [List.map_cons, List.nodup_cons] at hnd
    by_cases hp : p.1 = k
    · rw [List.eraseP_cons_of_pos (by simpa using hp)]
      rw [← hp]
      exact hnd.1
    · rw [List.eraseP_cons_of_neg (by simpa using hp)]
      simp only [List.map_cons, List.mem_cons, not_or]
      exact ⟨fun h => hp h.symm, ih hnd.2⟩

theorem eraseP_handle_mem (l : List (URegistryKey × ServiceFactory)) (k h : URegistryKey)
    (hne : k ≠ h) (hm : h ∈ l.map (fun p => p.1)) :
    h ∈ (l.eraseP (fun p => p.1 == k)).map (fun p => p.1) := by
  induction l with
  | nil => simp at hm
  | cons p l ih =>
    simp only [List.map_cons, List.mem_cons] at hm
    by_cases hp : p.1 = k
    · rw [List.eraseP_cons_of_pos (by simpa using hp)]
      rcases hm with hm | hm
      · exact absurd (hp.symm.trans hm.symm ▸ rfl) (fun e : k = h => hne e)
      · exact hm
    · rw [List.eraseP_cons_of_neg (by simpa using hp)]
      simp only [List.map_cons, List.mem_cons]
      rcases hm with hm | hm
      · exact Or.inl hm
      · exact Or.inr (ih hm)

theorem eraseP_handle_sub (l : List (URegistryKey × ServiceFactory)) (k h : URegistryKey)
    (hm : h ∈ (l.eraseP (fun p => p.1 == k)).map (fun p => p.1)) :
    h ∈ l.map (fun p => p.1) :=
  ((List.eraseP_sublist l).map (fun p => p.1)).subset hm

theorem eraseP_handle_nodup (l : List (URegistryKey × ServiceFactory)) (k : URegistryKey)
    (hnd : (l.map (fun p => p.1)).Nodup) :
    ((l.eraseP (fun p => p.1 == k)).map (fun p => p.1)).Nodup :=
  hnd.sublist ((List.eraseP_sublist l).map (fun p => p.1))

theorem handles_of_some (g : Globals) (s : ICUCollatorService) (hg : g.gService = some s) :
    g.handles = s.factories.map (fun p => p.1) := by
  simp [Globals.handles, Globals.chain, hg]

theorem handles_of_none (g : Globals) (hg : g.gService = none) : g.handles = [] := by
  simp [Globals.handles, Globals.chain, hg]

/-- At program start the invariant of the heap holds. -/
theorem wfHandles_initial : Globals.initial.wfHandles := by
  simp [Globals.wfHandles, Globals.handles, Globals.chain, Globals.initial]

/-- A lookup changes neither the handles of the chain nor the heap. -/
theorem createInstance_handles (env : Env) (desiredLocale : Locale) (status : UErrorCode)
    (g : Globals) :
    (createInstance env desiredLocale status g).2.2.handles = g.handles ∧
      (createInstance env desiredLocale status g).2.2.nextAddr = g.nextAddr := by
  unfold createInstance
  split
  · exact ⟨rfl, rfl⟩
  · cases hg : g.gService with
    | none => exact ⟨rfl, rfl⟩
    | some s =>
      refine ⟨?_, rfl⟩
      simp only [Globals.handles, Globals.chain, hg, ICUCollatorService.get, getKey_factories]

/-- The handles and the heap after `getService`. -/
theorem getService_handles (g : Globals) :
    (hasService g = true → (getService g).2 = g) ∧
      (hasService g = false →
        (getService g).2.handles = [g.nextAddr] ∧
          (getService g).2.nextAddr = g.nextAddr + 1) := by
  cases hg : g.gService with
  | none =>
    refine ⟨fun h => by simp [hasService, hg] at h, fun _ => ?_⟩
    simp [getService, hg, Globals.handles, Globals.chain, newICUCollatorService,
      ICUCollatorService.registerFactory]
  | some s =>
    refine ⟨fun _ => by simp [getService, hg], fun h => by simp [hasService, hg] at h⟩

theorem wfHandles_getService (g : Globals) (hwf : g.wfHandles) : (getService g).2.wfHandles := by
  by_cases h : hasService g = true
  · rw [(getService_handles g).1 h]
    exact hwf
  · obtain ⟨h1, h2⟩ := (getService_handles g).2 (by simpa using h)
    simp [Globals.wfHandles, h1, h2]

/-- The handles and the heap after a registration that succeeds. -/
theorem registerFactory_handles (F : CollatorFactory) (status : UErrorCode)
    (tableAlloc : Bool) (g : Globals) (hs : U_SUCCESS status = true) :
    (registerFactory F status true tableAlloc g).1 = some g.nextAddr ∧
      (registerFactory F status true tableAlloc g).2.2.handles =
        g.nextAddr :: (if hasService g then g.handles else [g.nextAddr + 1]) ∧
      (registerFactory F status true tableAlloc g).2.2.nextAddr =
        (if hasService g then g.nextAddr + 1 else g.nextAddr + 2) := by
  cases hg : g.gService with
  | none =>
    simp [registerFactory, hs, getService, hg, hasService, Globals.handles, Globals.chain,
      newICUCollatorService, ICUCollatorService.registerFactory]
  | some s =>
    simp [registerFactory, hs, getService, hg, hasService, Globals.handles, Globals.chain,
      ICUCollatorService.registerFactory]

theorem registerFactory_unchanged (F : CollatorFactory) (status : UErrorCode)
    (adapterAlloc tableAlloc : Bool) (g : Globals)
    (h : U_SUCCESS status = false ∨ adapterAlloc = false) :
    (registerFactory F status adapterAlloc tableAlloc g).1 = none ∧
      (registerFactory F status adapterAlloc tableAlloc g).2.2 = g := by
  rcases h with h | h
  · simp [registerFactory, h]
  · by_cases hs : U_SUCCESS status = true
    · simp [registerFactory, hs, h]
    · simp [registerFactory, hs]

theorem wfHandles_registerFactory (F : CollatorFactory) (status : UErrorCode)
    (adapterAlloc tableAlloc : Bool) (g : Globals) (hwf : g.wfHandles) :
    (registerFactory F status adapterAlloc tableAlloc g).2.2.wfHandles := by
  by_cases hs : U_SUCCESS status = true
  · cases adapterAlloc with
    | false => rw [(registerFactory_unchanged F status false tableAlloc g (Or.inr rfl)).2]
               exact hwf
    | true =>
      obtain ⟨_, h2, h3⟩ := registerFactory_handles F status tableAlloc g hs
      obtain ⟨hnd, hlt⟩ := hwf
      by_cases hh : hasService g = true
      · simp only [hh, if_true] at h2 h3
        refine ⟨?_, ?_⟩
        · rw [h2, List.nodup_cons]
          exact ⟨fun hm => Nat.lt_irrefl _ (hlt _ hm), hnd⟩
        · intro k hk
          rw [h2] at hk
          rw [h3]
          rcases List.mem_cons.mp hk with hk | hk
          · rw [hk]
            exact Nat.lt_succ_self _
          · exact Nat.lt_succ_of_lt (hlt k hk)
      · have hh1 : hasService g = false := by simpa using hh
        simp only [hh1, Bool.false_eq_true, if_false] at h2 h3
        refine ⟨?_, ?_⟩
        · rw [h2]
          simp
        · intro k hk
          rw [h2] at hk
          rw [h3]
          simp only [List.mem_cons, List.mem_singleton, List.not_mem_nil, or_false] at hk
          rcases hk with hk | hk
          · rw [hk]
            exact Nat.lt_add_of_pos_right (by decide)
          · rw [hk]
            exact Nat.lt_succ_self _
  · rw [(registerFactory_unchanged F status adapterAlloc tableAlloc g
      (Or.inl (by simpa using hs))).2]
    exact hwf

/-- The handles and the heap after `unregister`: the chain loses the factory at
that address when the call returns TRUE, and nothing changes otherwise. -/
theorem unregister_handles (key : URegistryKey) (status : UErrorCode) (g : Globals) :
    (unregister key status g).2.2.nextAddr = g.nextAddr ∧
      (((unregister key status g).1 = true ∧
          ∃ s, g.gService = some s ∧
            (unregister key status g).2.2.handles =
              (s.factories.eraseP (fun p => p.1 == key)).map (fun p => p.1)) ∨
        ((unregister key status g).1 = false ∧
          (unregister key status g).2.2.handles = g.handles)) := by
  unfold unregister
  split
  · cases hg : g.gService with
    | none => exact ⟨rfl, Or.inr ⟨rfl, rfl⟩⟩
    | some s =>
      refine ⟨rfl, ?_⟩
      by_cases ha : s.factories.any (fun p => p.1 == key) = true
      · left
        simp [ICUCollatorService.unregister, ha, Globals.handles, Globals.chain]
      · right
        simp [ICUCollatorService.unregister, ha, Globals.handles, Globals.chain, hg]
  · exact ⟨rfl, Or.inr ⟨rfl, rfl⟩⟩

theorem wfHandles_unregister (key : URegistryKey) (status : UErrorCode) (g : Globals)
    (hwf : g.wfHandles) : (unregister key status g).2.2.wfHandles := by
  obtain ⟨hn, h⟩ := unregister_handles key status g
  obtain ⟨hnd, hlt⟩ := hwf
  rcases h with ⟨_, s, hg, hh⟩ | ⟨_, hh⟩
  · rw [handles_of_some g s hg] at hnd hlt
    refine ⟨?_, ?_⟩
    · rw [hh]
      exact eraseP_handle_nodup _ _ hnd
    · intro k hk
      rw [hh] at hk
      rw [hn]
      exact hlt k (eraseP_handle_sub _ _ _ hk)
  · exact ⟨by rw [hh]; exact hnd, by intro k hk; rw [hh] at hk; rw [hn]; exact hlt k hk⟩

/-- Every call other than `registerInstance` keeps the invariant of the heap. -/
theorem run_wfHandles (env : Env) (serviceRegister : ServiceRegisterInstance)
    (c : ApiCall) (g : Globals)
    (hc : ∀ a l s, c ≠ ApiCall.registerInstance a l s) (hwf : g.wfHandles) :
    (c.run env serviceRegister g).wfHandles := by
  cases c with
  | createInstance desiredLocale status =>
    obtain ⟨h1, h2⟩ := createInstance_handles env desiredLocale status g
    simp only [ApiCall.run, Globals.wfHandles, h1, h2]
    exact hwf
  | createInstanceDefault status =>
    simp only [ApiCall.run, createInstanceDefault]
    split
    · exact hwf
    · obtain ⟨h1, h2⟩ := createInstance_handles env env.defaultLocale status g
      simp only [Globals.wfHandles, h1, h2]
      exact hwf
  | getDisplayName objectLocale displayLocale => exact hwf
  | registerInstance toAdopt locale status => exact absurd rfl (hc toAdopt locale status)
  | registerFactory toAdopt status adapterAlloc tableAlloc =>
    exact wfHandles_registerFactory toAdopt status adapterAlloc tableAlloc g hwf
  | unregister key status => exact wfHandles_unregister key status g hwf
  | getAvailableLocales =>
    simp only [ApiCall.run, getAvailableLocales]
    exact wfHandles_getService g hwf

/-- A call that is neither `unregister` of `h` nor `registerInstance` leaves the
factory registered under `h` in the chain. -/
theorem run_keeps_handle (env : Env) (serviceRegister : ServiceRegisterInstance)
    (h : URegistryKey) (c : ApiCall) (g : Globals)
    (hc : c.keeps h = true) (hm : h ∈ g.handles) :
    h ∈ (c.run env serviceRegister g).handles := by
  have hhas : hasService g = true := by
    cases hg : g.gService with
    | none => rw [handles_of_none g hg] at hm; simp at hm
    | some s => simp [hasService, hg]
  cases c with
  | createInstance desiredLocale status =>
    simp only [ApiCall.run, (createInstance_handles env desiredLocale status g).1]
    exact hm
  | createInstanceDefault status =>
    simp only [ApiCall.run, createInstanceDefault]
    split
    · exact hm
    · rw [(createInstance_handles env env.defaultLocale status g).1]
      exact hm
  | getDisplayName objectLocale displayLocale => exact hm
  | registerInstance toAdopt locale status => simp [ApiCall.keeps] at hc
  | registerFactory toAdopt status adapterAlloc tableAlloc =>
    simp only [ApiCall.run]
    by_cases hs : U_SUCCESS status = true
    · cases adapterAlloc with
      | false =>
        rw [(registerFactory_unchanged toAdopt status false tableAlloc g (Or.inr rfl)).2]
        exact hm
      | true =>
        rw [(registerFactory_handles toAdopt status tableAlloc g hs).2.1]
        simp only [hhas, if_true]
        exact List.mem_cons_of_mem _ hm
    · rw [(registerFactory_unchanged toAdopt status adapterAlloc tableAlloc g
        (Or.inl (by simpa using hs))).2]
      exact hm
  | unregister key status =>
    simp only [ApiCall.run]
    have hne : key ≠ h := by simpa [ApiCall.keeps] using hc
    rcases (unregister_handles key status g).2 with ⟨_, s, hg, hh⟩ | ⟨_, hh⟩
    · rw [hh]
      rw [handles_of_some g s hg] at hm
      exact eraseP_handle_mem _ _ _ hne hm
    · rw [hh]
      exact hm
  | getAvailableLocales =>
    simp only [ApiCall.run, getAvailableLocales]
    rw [(getService_handles g).1 hhas]
    exact hm

/-- Once the registry exists, a call that is not a registration brings no handle
into the chain. -/
theorem run_no_new_handle (env : Env) (serviceRegister : ServiceRegisterInstance)
    (h : URegistryKey) (c : ApiCall) (g : Globals)
    (hc : c.registers = false) (hhas : hasService g = true) (hn : h ∉ g.handles) :
    h ∉ (c.run env serviceRegister g).handles := by
  cases c with
  | createInstance desiredLocale status =>
    simp only [ApiCall.run, (createInstance_handles env desiredLocale status g).1]
    exact hn
  | createInstanceDefault status =>
    simp only [ApiCall.run, createInstanceDefault]
    split
    · exact hn
    · rw [(createInstance_handles env env.defaultLocale status g).1]
      exact hn
  | getDisplayName objectLocale displayLocale => exact hn
  | registerInstance toAdopt locale status => simp [ApiCall.registers] at hc
  | registerFactory toAdopt status adapterAlloc tableAlloc => simp [ApiCall.registers] at hc
  | unregister key status =>
    simp only [ApiCall.run]
    rcases (unregister_handles key status g).2 with ⟨_, s, hg, hh⟩ | ⟨_, hh⟩
    · rw [hh]
      rw [handles_of_some g s hg] at hn
      exact fun hm => hn (eraseP_handle_sub _ _ _ hm)
    · rw [hh]
      exact hn
  | getAvailableLocales =>
    simp only [ApiCall.run, getAvailableLocales]
    rw [(getService_handles g).1 hhas]
    exact hn

theorem runCalls_keeps_handle (env : Env) (serviceRegister : ServiceRegisterInstance)
    (h : URegistryKey) (cs : List ApiCall) (g : Globals)
    (hcs : ∀ c ∈ cs, c.keeps h = true) (hwf : g.wfHandles) (hm : h ∈ g.handles) :
    (runCalls env serviceRegister cs g).wfHandles ∧
      h ∈ (runCalls env serviceRegister cs g).handles := by
  induction cs generalizing g with
  | nil => exact ⟨hwf, hm⟩
  | cons c cs ih =>
    have hc := hcs c (List.mem_cons_self c cs)
    have hnot : ∀ a l s, c ≠ ApiCall.registerInstance a l s := by
      intro a l s he
      rw [he] at hc
      simp [ApiCall.keeps] at hc
    exact ih (c.run env serviceRegister g)
      (fun d hd => hcs d (List.mem_cons_of_mem c hd))
      (run_wfHandles env serviceRegister c g hnot hwf)
      (run_keeps_handle env serviceRegister h c g hc hm)

theorem runCalls_no_new_handle (env : Env) (serviceRegister : ServiceRegisterInstance)
    (h : URegistryKey) (cs : List ApiCall) (g : Globals)
    (hcs : ∀ c ∈ cs, c.registers = false) (hhas : hasService g = true)
    (hn : h ∉ g.handles) :
    h ∉ (runCalls env serviceRegister cs g).handles := by
  induction cs generalizing g with
  | nil => exact hn
  | cons c cs ih =>
    exact ih (c.run env serviceRegister g)
      (fun d hd => hcs d (List.mem_cons_of_mem c hd))
      (run_hasService env serviceRegister c g hhas)
      (run_no_new_handle env serviceRegister h c g (hcs c (List.mem_cons_self c cs)) hhas hn)

/-- With a success status, `unregister` of a handle of the chain returns TRUE,
leaves the status as it was, and the handle is in the chain no more. -/
theorem unregister_registered (h : URegistryKey) (status : UErrorCode) (g : Globals)
    (hs : U_SUCCESS status = true) (hwf : g.wfHandles) (hm : h ∈ g.handles) :
    (unregister h status g).1 = true ∧ (unregister h status g).2.1 = status ∧
      hasService (unregister h status g).2.2 = true ∧
      h ∉ (unregister h status g).2.2.handles := by
  cases hg : g.gService with
  | none => rw [handles_of_none g hg] at hm; simp at hm
  | some s =>
    rw [handles_of_some g s hg] at hm
    have hnd : (s.factories.map (fun p => p.1)).Nodup := by
      have := hwf.1
      rwa [handles_of_some g s hg] at this
    have ha : s.factories.any (fun p => p.1 == h) = true := by
      obtain ⟨p, hp, hph⟩ := List.mem_map.mp hm
      exact List.any_eq_true.mpr ⟨p, hp, by simpa using hph⟩
    refine ⟨?_, ?_, ?_, ?_⟩
    · simp [unregister, hs, hg, ICUCollatorService.unregister, ha]
    · simp [unregister, hs, hg, ICUCollatorService.unregister, ha]
    · simp [unregister, hs, hg, hasService]
    · have : (unregister h status g).2.2.handles =
          (s.factories.eraseP (fun p => p.1 == h)).map (fun p => p.1) := by
        simp [unregister, hs, hg, ICUCollatorService.unregister, ha, Globals.handles,
          Globals.chain]
      rw [this]
      exact eraseP_handle_not_mem _ _ hnd

/-- The `unregister` of a handle that is not in the chain returns FALSE. -/
theorem unregister_unregistered (h : URegistryKey) (status : UErrorCode) (g : Globals)
    (hn : h ∉ g.handles) : (unregister h status g).1 = false := by
  unfold unregister
  split
  · cases hg : g.gService with
    | none => rfl
    | some s =>
      rw [handles_of_some g s hg] at hn
      have ha : s.factories.any (fun p => p.1 == h) = false := by
        rw [List.any_eq_false]
        intro p hp hph
        exact hn (List.mem_map.mpr ⟨p, hp, by simpa using hph⟩)
      simp [ICUCollatorService.unregister, ha]
  · rfl

/-- C6.  Let `h` be the handle a successful `registerFactory` returns, in a state
whose chain holds distinct addresses already handed out (true at program start
and kept by every call but `registerInstance`).  After any calls of the entry
points that are neither `unregister` of `h` nor `registerInstance`, further
registrations of factories among them, `unregister` of `h` with a success
status returns TRUE and leaves the status as it was; after any further calls
none of which is a registration, a second `unregister` of `h` returns FALSE,
with a success status as with any other. -/
theorem unregister_twice (env : Env) (serviceRegister : ServiceRegisterInstance)
    (F : CollatorFactory) (status : UErrorCode) (adapterAlloc tableAlloc : Bool)
    (g g1 : Globals) (h : URegistryKey) (st st1 st2 : UErrorCode) (cs1 cs2 : List ApiCall)
    (hwf : g.wfHandles)
    (hreg : registerFactory F status adapterAlloc tableAlloc g = (some h, st, g1))
    (hcs1 : ∀ c ∈ cs1, c.keeps h = true)
    (hcs2 : ∀ c ∈ cs2, c.registers = false)
    (hs1 : U_SUCCESS st1 = true) :
    (unregister h st1 (runCalls env serviceRegister cs1 g1)).1 = true ∧
      (unregister h st1 (runCalls env serviceRegister cs1 g1)).2.1 = st1 ∧
      (unregister h st2
        (runCalls env serviceRegister cs2
          (unregister h st1 (runCalls env serviceRegister cs1 g1)).2.2)).1 = false := by
  have hs : U_SUCCESS status = true := by
    by_contra hn
    simp [registerFactory, hn] at hreg
  have ha : adapterAlloc = true := by
    cases adapterAlloc with
    | true => rfl
    | false => simp [registerFactory, hs] at hreg
  subst ha
  have hwf1 : g1.wfHandles := by
    have := wfHandles_registerFactory F status true tableAlloc g hwf
    rwa [hreg] at this
  have hm1 : h ∈ g1.handles := by
    obtain ⟨e1, e2, _⟩ := registerFactory_handles F status tableAlloc g hs
    rw [hreg] at e1 e2
    simp only [Option.some.injEq] at e1
    simp only at e2
    rw [e2, e1]
    exact List.mem_cons_self _ _
  obtain ⟨hwf2, hm2⟩ := runCalls_keeps_handle env serviceRegister h cs1 g1 hcs1 hwf1 hm1
  obtain ⟨r1, r2, r3, r4⟩ :=
    unregister_registered h st1 (runCalls env serviceRegister cs1 g1) hs1 hwf2 hm2
  exact ⟨r1, r2, unregister_unregistered h st2 _
    (runCalls_no_new_handle env serviceRegister h cs2 _ hcs2 r3 r4)⟩

/-- C6 at a concrete input: the sample factory is registered at program start
under the handle 0, then a second factory under the handle 2, so that the chain
holds the addresses 2, 0 and 1; after a lookup, `unregister` of 0 returns TRUE,
and after another lookup it returns FALSE. -/
theorem unregister_twice_witness :
    registerFactory (sampleFactory 1) U_ZERO_ERROR true true Globals.initial =
        (some 0, U_ZERO_ERROR, sampleGlobals) ∧
      (runCalls (sampleEnv false) sampleServiceRegister
        [ApiCall.registerFactory nullFactory U_ZERO_ERROR true true,
          ApiCall.createInstance "xx_YY" U_ZERO_ERROR] sampleGlobals).handles = [2, 0, 1] ∧
      (unregister 0 U_ZERO_ERROR
        (runCalls (sampleEnv false) sampleServiceRegister
          [ApiCall.registerFactory nullFactory U_ZERO_ERROR true true,
            ApiCall.createInstance "xx_YY" U_ZERO_ERROR] sampleGlobals)).1 = true ∧
      (unregister 0 U_ZERO_ERROR
        (runCalls (sampleEnv false) sampleServiceRegister
          [ApiCall.createInstance "xx_YY" U_ZERO_ERROR, ApiCall.getAvailableLocales]
          (unregister 0 U_ZERO_ERROR
            (runCalls (sampleEnv false) sampleServiceRegister
              [ApiCall.registerFactory nullFactory U_ZERO_ERROR true true,
                ApiCall.createInstance "xx_YY" U_ZERO_ERROR] sampleGlobals)).2.2)).1 = false := by
  have t := unregister_twice (sampleEnv false) sampleServiceRegister (sampleFactory 1)
    U_ZERO_ERROR true true Globals.initial sampleGlobals 0 U_ZERO_ERROR U_ZERO_ERROR
    U_ZERO_ERROR
    [ApiCall.registerFactory nullFactory U_ZERO_ERROR true true,
      ApiCall.createInstance "xx_YY" U_ZERO_ERROR]
    [ApiCall.createInstance "xx_YY" U_ZERO_ERROR, ApiCall.getAvailableLocales]
    wfHandles_initial rfl
    (by intro c hc; simp at hc; rcases hc with rfl | rfl <;> rfl)
    (by intro c hc; simp at hc; rcases hc with rfl | rfl <;> rfl)
    (by decide)
  exact ⟨rfl, by decide, t.1, t.2.2⟩

/-! ## C18: `isDefault` and the path it enables -/

/-- The `isDefault()` test and the two constructions it chooses between:
`isDefault()` holds exactly when the chain has one factory; it holds for a
registry just constructed, and it does not hold after a successful
`registerFactory` into a registry whose chain was not empty or that had to be
constructed.  For every key and status for which the built-in factory's
handles-test holds, `handleDefault` and `ICUCollatorFactory::create` return the
same collator and status, namely those of `makeInstance` of the key's canonical
locale. -/
theorem isDefault_handleDefault (env : Env) (key : LocaleKey) (status : UErrorCode)
    (hhandles : ICUCollatorFactory.handlesKey env key status = true) :
    (∀ s : ICUCollatorService, s.isDefault = true ↔ s.factories.length = 1) ∧
    (∀ addr, (newICUCollatorService addr).isDefault = true) ∧
    (∀ g, (getService (collator_cleanup g).2).1.isDefault = true) ∧
    (∀ (F : CollatorFactory) (st : UErrorCode) (tableAlloc : Bool) (g : Globals)
        (s1 : ICUCollatorService),
      U_SUCCESS st = true →
      (∀ s, g.gService = some s → s.factories ≠ []) →
      (registerFactory F st true tableAlloc g).2.2.gService = some s1 →
      s1.isDefault = false) ∧
    ICUCollatorService.handleDefault env key status =
      ICUCollatorFactory.create env key status ∧
    ICUCollatorService.handleDefault env key status =
      makeInstance env key.canonicalLocale status := by
  refine ⟨?_, ?_, ?_, ?_, ?_, rfl⟩
  · intro s
    simp [ICUCollatorService.isDefault, ICUCollatorService.countFactories]
  · intro addr
    rfl
  · intro g
    rfl
  · intro F st tableAlloc g s1 hs hne hreg
    rw [registerFactory_eq F st tableAlloc g hs] at hreg
    simp only [Option.some.injEq] at hreg
    subst hreg
    have hlen : (getService { g with nextAddr := g.nextAddr + 1 }).1.factories ≠ [] := by
      rw [getService_factories]
      cases hg : g.gService with
      | none => simp
      | some s => simpa using hne s hg
    have hpos := List.length_pos.mpr hlen
    simp only [ICUCollatorService.isDefault, ICUCollatorService.countFactories,
      List.length_cons, beq_eq_false_iff_ne, ne_eq]
    omega
  · simp [ICUCollatorService.handleDefault, ICUCollatorFactory.create, hhandles]

/-- C18, the code at the failing input.  The built-in factory handles `en_US`,
and for the key of `en_US` `handleDefault` and `ICUCollatorFactory::create`
return the same collator.  In a registry that holds the built-in factory alone
`isDefault()` holds, and `createInstance` of `en_US` returns that collator
with valid locale the empty locale.  After `registerFactory` of a factory that
declares no identifier and creates no collator, `isDefault()` no longer holds,
the same request is resolved through the chain by the same built-in factory,
and the collator returned has valid locale `en_US`: the results of the two
paths differ. -/
theorem isDefault_changes_result :
    ICUCollatorFactory.handlesKey (sampleEnv false) (LocaleKey.create "en_US" "en_US")
      U_ZERO_ERROR = true ∧
    ICUCollatorService.handleDefault (sampleEnv false) (LocaleKey.create "en_US" "en_US")
        U_ZERO_ERROR =
      ICUCollatorFactory.create (sampleEnv false) (LocaleKey.create "en_US" "en_US")
        U_ZERO_ERROR ∧
    (defaultGlobals (sampleEnv false)).gService.map ICUCollatorService.isDefault =
      some true ∧
    (createInstance (sampleEnv false) "en_US" U_ZERO_ERROR
        (defaultGlobals (sampleEnv false))).1 =
      some { rules := 0, recordsLocales := true, requestedLocale := "en_US",
             validLocale := "" } ∧
    (newCFactory emptyFactory true)._ids = some { keys := [] } ∧
    (registerFactory emptyFactory U_ZERO_ERROR true true
        (defaultGlobals (sampleEnv false))).2.2.gService.map ICUCollatorService.isDefault =
      some false ∧
    (createInstance (sampleEnv false) "en_US" U_ZERO_ERROR
        (registerFactory emptyFactory U_ZERO_ERROR true true
          (defaultGlobals (sampleEnv false))).2.2).1 =
      some { rules := 0, recordsLocales := true, requestedLocale := "en_US",
             validLocale := "en_US" } ∧
    (createInstance (sampleEnv false) "en_US" U_ZERO_ERROR
        (defaultGlobals (sampleEnv false))).1 ≠
      (createInstance (sampleEnv false) "en_US" U_ZERO_ERROR
        (registerFactory emptyFactory U_ZERO_ERROR true true
          (defaultGlobals (sampleEnv false))).2.2).1 := by
  decide

/-! ## C19: a failure status on entry -/

/-- C19.  For every failure status on entry, `createInstance` with and without a
locale, `registerInstance` and `registerFactory` return null and `unregister`
returns FALSE; each leaves the status and the globals as they were, so the
registry is neither constructed nor changed. -/
theorem failure_on_entry (env : Env) (serviceRegister : ServiceRegisterInstance)
    (status : UErrorCode) (g : Globals) (desiredLocale locale : Locale) (toAdopt : Collator)
    (factory : CollatorFactory) (adapterAlloc tableAlloc : Bool) (key : URegistryKey)
    (hf : U_FAILURE status = true) :
    createInstance env desiredLocale status g = (none, status, g) ∧
    createInstanceDefault env status g = (none, status, g) ∧
    registerInstance serviceRegister toAdopt locale status g = (none, status, g) ∧
    registerFactory factory status adapterAlloc tableAlloc g = (none, status, g) ∧
    unregister key status g = (false, status, g) := by
  have hs := not_success_of_failure hf
  refine ⟨?_, ?_, ?_, ?_, ?_⟩
  · simp [createInstance, hf]
  · simp [createInstanceDefault, hf]
  · simp [registerInstance, hs]
  · simp [registerFactory, hs]
  · simp [unregister, hs]

/-- C19 at a concrete input: the status `U_ILLEGAL_ARGUMENT_ERROR` at program
start. -/
theorem failure_on_entry_witness :
    U_FAILURE U_ILLEGAL_ARGUMENT_ERROR = true ∧
    createInstance (sampleEnv true) "fr" U_ILLEGAL_ARGUMENT_ERROR Globals.initial =
      (none, U_ILLEGAL_ARGUMENT_ERROR, Globals.initial) ∧
    createInstanceDefault (sampleEnv true) U_ILLEGAL_ARGUMENT_ERROR Globals.initial =
      (none, U_ILLEGAL_ARGUMENT_ERROR, Globals.initial) ∧
    registerInstance sampleServiceRegister (sampleRuleBased "fr") "fr"
      U_ILLEGAL_ARGUMENT_ERROR Globals.initial =
      (none, U_ILLEGAL_ARGUMENT_ERROR, Globals.initial) ∧
    registerFactory (sampleFactory 1) U_ILLEGAL_ARGUMENT_ERROR true true Globals.initial =
      (none, U_ILLEGAL_ARGUMENT_ERROR, Globals.initial) ∧
    unregister 0 U_ILLEGAL_ARGUMENT_ERROR Globals.initial =
      (false, U_ILLEGAL_ARGUMENT_ERROR, Globals.initial) :=
  ⟨by decide,
    failure_on_entry (sampleEnv true) sampleServiceRegister U_ILLEGAL_ARGUMENT_ERROR
      Globals.initial "fr" "fr" (sampleRuleBased "fr") (sampleFactory 1) true true 0
      (by decide)⟩

/-! ## C20: the version-checked `createInstance` -/

/-- C20, the code at the failing input.  Called with the failure status
`U_ILLEGAL_ARGUMENT_ERROR` (collaborators whose constructor leaves the status
as it found it), the version-checked `createInstance` returns a non-null
collator although the status on return is a failure, and it does so without
comparing versions: the requested version 9.9.9.9 is not the collator's
1.2.3.4.  `makeInstance` returns null for the same construction. -/
theorem createInstanceVersion_failure_nonnull :
    (createInstanceVersion (sampleEnv true) sampleVersion "fr" (9, 9, 9, 9)
      U_ILLEGAL_ARGUMENT_ERROR).1 = some (sampleRuleBased "fr") ∧
    (createInstanceVersion (sampleEnv true) sampleVersion "fr" (9, 9, 9, 9)
      U_ILLEGAL_ARGUMENT_ERROR).2 = U_ILLEGAL_ARGUMENT_ERROR ∧
    U_SUCCESS (createInstanceVersion (sampleEnv true) sampleVersion "fr" (9, 9, 9, 9)
      U_ILLEGAL_ARGUMENT_ERROR).2 = false ∧
    sampleVersion (sampleRuleBased "fr") ≠ (9, 9, 9, 9) ∧
    makeInstance (sampleEnv true) "fr" U_ILLEGAL_ARGUMENT_ERROR =
      (none, U_ILLEGAL_ARGUMENT_ERROR) := by
  decide

/-- What the version-checked `createInstance` does in general: a non-null result
means that `new` gave a collator and that either the constructor left a failure
status or the versions are equal; when the constructor left a success status, a
version that differs gives null with `U_MISSING_RESOURCE_ERROR` and an equal
version gives the collator with the constructor's status. -/
theorem createInstanceVersion_cases (env : Env) (getVersion : Collator → UVersionInfo)
    (loc : Locale) (version : UVersionInfo) (status : UErrorCode) :
    (∀ c, (createInstanceVersion env getVersion loc version status).1 = some c →
      (env.newRuleBasedCollator loc status).1 = some c ∧
        (U_SUCCESS (env.newRuleBasedCollator loc status).2 = false ∨
          getVersion c = version)) ∧
    (∀ c, (env.newRuleBasedCollator loc status).1 = some c →
      U_SUCCESS (env.newRuleBasedCollator loc status).2 = true →
      getVersion c ≠ version →
      createInstanceVersion env getVersion loc version status =
        (none, U_MISSING_RESOURCE_ERROR)) ∧
    (∀ c, (env.newRuleBasedCollator loc status).1 = some c →
      U_SUCCESS (env.newRuleBasedCollator loc status).2 = true →
      getVersion c = version →
      createInstanceVersion env getVersion loc version status =
        (some c, (env.newRuleBasedCollator loc status).2)) := by
  unfold createInstanceVersion
  cases hnew : env.newRuleBasedCollator loc status with
  | mk r st =>
    cases r with
    | none => simp
    | some collator =>
      by_cases hs : U_SUCCESS st = true
      · by_cases hv : version = getVersion collator
        · simp [hs, hv]
        · have hv1 : ¬ getVersion collator = version := fun h => hv h.symm
          simp [hs, hv, hv1]
      · simp [hs]

end Coll

namespace Ustrtrn

open Coll

/-! ## UTF-16 and code points -/

theorem encodeAll_cons (one : Nat → Option (List Nat)) (c : Nat) (cs a b : List Nat)
    (ha : one c = some a) (hb : encodeAll one cs = some b) :
    encodeAll one (c :: cs) = some (a ++ b) := by
  simp [encodeAll, ha, hb]

theorem encode16One_bmp (u : Nat) (h1 : isLead u = false) (h2 : isTrail u = false)
    (h3 : u < 0x10000) : encode16One u = some [u] ∧ isScalar u = true := by
  simp only [isLead, isTrail, Bool.and_eq_false_iff, decide_eq_false_iff_not] at h1 h2
  have hs : ¬ (0xD800 ≤ u ∧ u < 0xE000) := by omega
  constructor
  · simp only [encode16One, h3, if_true, Bool.and_eq_true, decide_eq_true_eq, hs, if_false]
  · simp only [isScalar, Bool.and_eq_true, decide_eq_true_eq, Bool.not_eq_true',
      Bool.and_eq_false_iff, decide_eq_false_iff_not]
    omega

theorem encode16One_pair (u t : Nat) (h1 : isLead u = true) (h2 : isTrail t = true) :
    encode16One (pairValue u t) = some [u, t] ∧ isScalar (pairValue u t) = true := by
  simp only [isLead, isTrail, Bool.and_eq_true, decide_eq_true_eq] at h1 h2
  have hlow : ¬ pairValue u t < 0x10000 := by simp only [pairValue]; omega
  have hhigh : pairValue u t < 0x110000 := by simp only [pairValue]; omega
  have hdiv : (pairValue u t - 0x10000) / 0x400 = u - 0xD800 := by
    simp only [pairValue]; omega
  have hmod : (pairValue u t - 0x10000) % 0x400 = t - 0xDC00 := by
    simp only [pairValue]; omega
  constructor
  · simp only [encode16One, hlow, if_false, hhigh, if_true, hdiv, hmod]
    have hu : 0xD800 + (u - 0xD800) = u := by omega
    have ht : 0xDC00 + (t - 0xDC00) = t := by omega
    rw [hu, ht]
  · simp only [isScalar, Bool.and_eq_true, decide_eq_true_eq, Bool.not_eq_true',
      Bool.and_eq_false_iff, decide_eq_false_iff_not]
    omega

/-- A well-formed UTF-16 string has code points, all of them scalar values, and
their UTF-16 form is the string itself. -/
theorem decode16_wellFormed :
    ∀ (n : Nat) (s : List Nat), s.length ≤ n → wellFormed16 s = true →
      ∃ cps, decode16 s = some cps ∧ encodeAll encode16One cps = some s ∧
        (∀ c ∈ cps, isScalar c = true) ∧ cps.length ≤ s.length := by
  intro n
  induction n with
  | zero =>
    intro s hlen _
    have : s = [] := List.length_eq_zero.mp (by omega)
    subst this
    exact ⟨[], rfl, rfl, by simp, by simp⟩
  | succ n ih =>
    intro s hlen hwf
    match s, hlen, hwf with
    | [], _, _ => exact ⟨[], rfl, rfl, by simp, by simp⟩
    | [u], _, hwf =>
      simp only [wellFormed16, Bool.and_eq_true, Bool.not_eq_true', decide_eq_true_eq] at hwf
      obtain ⟨⟨h1, h2⟩, h3⟩ := hwf
      have henc := encode16One_bmp u h1 h2 h3
      refine ⟨[u], ?_, ?_, ?_, by simp⟩
      · have h3n : ¬ 0x10000 ≤ u := by omega
        simp [decode16, h1, h2, h3n]
      · simpa using encodeAll_cons encode16One u [] [u] [] henc.1 rfl
      · intro c hc
        simp only [List.mem_singleton] at hc
        subst hc
        exact henc.2
    | u :: t :: rest, hlen, hwf =>
      simp only [List.length_cons] at hlen
      by_cases hl : isLead u = true
      · simp only [wellFormed16, hl, if_true, Bool.and_eq_true] at hwf
        obtain ⟨ht, hrest⟩ := hwf
        obtain ⟨cps, hd, he, hsc, hlen2⟩ := ih rest (by omega) hrest
        have henc := encode16One_pair u t hl ht
        refine ⟨pairValue u t :: cps, ?_, ?_, ?_, ?_⟩
        · simp [decode16, hl, ht, hd]
        · simpa using encodeAll_cons encode16One (pairValue u t) cps [u, t] rest henc.1 he
        · intro c hc
          simp only [List.mem_cons] at hc
          rcases hc with hc | hc
          · rw [hc]
            exact henc.2
          · exact hsc c hc
        · simp only [List.length_cons]
          omega
      · have hl1 : isLead u = false := by simpa using hl
        simp only [wellFormed16, hl1, Bool.false_eq_true, if_false, Bool.and_eq_true,
          Bool.not_eq_true', decide_eq_true_eq] at hwf
        obtain ⟨⟨h2, h3⟩, hrest⟩ := hwf
        obtain ⟨cps, hd, he, hsc, hlen2⟩ := ih (t :: rest) (by simp only [List.length_cons]; omega) hrest
        have henc := encode16One_bmp u hl1 h2 h3
        refine ⟨u :: cps, ?_, ?_, ?_, ?_⟩
        · have h3n : ¬ 0x10000 ≤ u := by omega
          simp [decode16, hl1, h2, h3n, hd]
        · simpa using encodeAll_cons encode16One u cps [u] (t :: rest) henc.1 he
        · intro c hc
          simp only [List.mem_cons] at hc
          rcases hc with hc | hc
          · rw [hc]
            exact henc.2
          · exact hsc c hc
        · simp only [List.length_cons] at hlen2 ⊢
          omega

/-! ## UTF-8 and code points -/

/-- The UTF-8 form of a scalar value is read back as that value. -/
theorem decode8_encode8One (c : Nat) (hc : isScalar c = true) :
    ∃ bs, encode8One c = some bs ∧ 0 < bs.length ∧
      ∀ fuel rest, decode8 (fuel + 1) (bs ++ rest) =
        (decode8 fuel rest).map (fun cs => c :: cs) := by
  simp only [isScalar, Bool.and_eq_true, decide_eq_true_eq, Bool.not_eq_true',
    Bool.and_eq_false_iff, decide_eq_false_iff_not] at hc
  obtain ⟨hmax, hsur⟩ := hc
  by_cases h1 : c < 0x80
  · refine ⟨[c], by simp [encode8One, h1], by simp, ?_⟩
    intro fuel rest
    simp [decode8, h1]
  · by_cases h2 : c < 0x800
    · refine ⟨[0xC0 + c / 0x40, 0x80 + c % 0x40], by simp [encode8One, h1, h2], by simp, ?_⟩
      intro fuel rest
      have e1 : ¬ 0xC0 + c / 0x40 < 0x80 := by omega
      have e2 : ¬ 0xC0 + c / 0x40 < 0xC2 := by omega
      have e3 : 0xC0 + c / 0x40 < 0xE0 := by omega
      have e4 : isCont (0x80 + c % 0x40) = true := by
        simp only [isCont, Bool.and_eq_true, decide_eq_true_eq]
        omega
      have e5 : (0xC0 + c / 0x40 - 0xC0) * 0x40 + (0x80 + c % 0x40 - 0x80) = c := by omega
      show decode8 (fuel + 1) ((0xC0 + c / 0x40) :: (0x80 + c % 0x40) :: rest) = _
      simp only [decode8, e1, e2, e3, e4, e5, if_true, if_false]
    · by_cases h3 : c < 0x10000
      · have hs : ¬ (0xD800 ≤ c ∧ c < 0xE000) := by omega
        refine ⟨[0xE0 + c / 0x1000, 0x80 + c / 0x40 % 0x40, 0x80 + c % 0x40],
          by simp [encode8One, h1, h2, h3, hs], by simp, ?_⟩
        intro fuel rest
        have e1 : ¬ 0xE0 + c / 0x1000 < 0x80 := by omega
        have e2 : ¬ 0xE0 + c / 0x1000 < 0xC2 := by omega
        have e3 : ¬ 0xE0 + c / 0x1000 < 0xE0 := by omega
        have e3b : 0xE0 + c / 0x1000 < 0xF0 := by omega
        have e4 : isCont (0x80 + c / 0x40 % 0x40) = true := by
          simp only [isCont, Bool.and_eq_true, decide_eq_true_eq]
          omega
        have e4b : isCont (0x80 + c % 0x40) = true := by
          simp only [isCont, Bool.and_eq_true, decide_eq_true_eq]
          omega
        have e5 : (0xE0 + c / 0x1000 - 0xE0) * 0x1000 + (0x80 + c / 0x40 % 0x40 - 0x80) * 0x40 +
            (0x80 + c % 0x40 - 0x80) = c := by omega
        have e6 : isScalar c = true := by
          simp only [isScalar, Bool.and_eq_true, decide_eq_true_eq, Bool.not_eq_true',
            Bool.and_eq_false_iff, decide_eq_false_iff_not]
          omega
        have e7 : 0x800 ≤ c := by omega
        show decode8 (fuel + 1)
          ((0xE0 + c / 0x1000) :: (0x80 + c / 0x40 % 0x40) :: (0x80 + c % 0x40) :: rest) = _
        simp only [decode8, e1, e2, e3, e3b, e4, e4b, e5, e6, e7, if_true, if_false,
          Bool.and_self, decide_True]
      · refine ⟨[0xF0 + c / 0x40000, 0x80 + c / 0x1000 % 0x40, 0x80 + c / 0x40 % 0x40,
            0x80 + c % 0x40], by simp [encode8One, h1, h2, h3, hmax], by simp, ?_⟩
        intro fuel rest
        have e1 : ¬ 0xF0 + c / 0x40000 < 0x80 := by omega
        have e2 : ¬ 0xF0 + c / 0x40000 < 0xC2 := by omega
        have e3 : ¬ 0xF0 + c / 0x40000 < 0xE0 := by omega
        have e3b : ¬ 0xF0 + c / 0x40000 < 0xF0 := by omega
        have e3c : 0xF0 + c / 0x40000 < 0xF5 := by omega
        have e4 : isCont (0x80 + c / 0x1000 % 0x40) = true := by
          simp only [isCont, Bool.and_eq_true, decide_eq_true_eq]
          omega
        have e4b : isCont (0x80 + c / 0x40 % 0x40) = true := by
          simp only [isCont, Bool.and_eq_true, decide_eq_true_eq]
          omega
        have e4c : isCont (0x80 + c % 0x40) = true := by
          simp only [isCont, Bool.and_eq_true, decide_eq_true_eq]
          omega
        have e5 : (0xF0 + c / 0x40000 - 0xF0) * 0x40000 +
            (0x80 + c / 0x1000 % 0x40 - 0x80) * 0x1000 +
            (0x80 + c / 0x40 % 0x40 - 0x80) * 0x40 + (0x80 + c % 0x40 - 0x80) = c := by omega
        have e7 : 0x10000 ≤ c := by omega
        show decode8 (fuel + 1)
          ((0xF0 + c / 0x40000) :: (0x80 + c / 0x1000 % 0x40) :: (0x80 + c / 0x40 % 0x40) ::
            (0x80 + c % 0x40) :: rest) = _
        simp only [decode8, e1, e2, e3, e3b, e3c, e4, e4b, e4c, e5, e7, hmax, if_true, if_false,
          Bool.and_self, decide_True]

/-- The UTF-8 form of a list of scalar values is read back as that list, with
any fuel that is at least the number of bytes. -/
theorem decode8_encodeAll (cps : List Nat) (hsc : ∀ c ∈ cps, isScalar c = true) :
    ∃ bytes, encodeAll encode8One cps = some bytes ∧
      ∀ fuel, bytes.length ≤ fuel → decode8 fuel bytes = some cps := by
  induction cps with
  | nil =>
    refine ⟨[], rfl, ?_⟩
    intro fuel _
    cases fuel <;> rfl
  | cons c cs ih =>
    obtain ⟨bytes, henc, hdec⟩ := ih (fun x hx => hsc x (List.mem_cons_of_mem c hx))
    obtain ⟨bs, hbs, hpos, hone⟩ := decode8_encode8One c (hsc c (List.mem_cons_self c cs))
    refine ⟨bs ++ bytes, encodeAll_cons encode8One c cs bs bytes hbs henc, ?_⟩
    intro fuel hfuel
    rw [List.length_append] at hfuel
    obtain ⟨m, rfl⟩ : ∃ m, fuel = m + 1 := ⟨fuel - 1, by omega⟩
    rw [hone m bytes, hdec m (by omega)]
    rfl

/-! ## The calling convention -/

theorem srcUnits_explicit (s tail : List Nat) :
    srcUnits (s ++ tail) (s.length : Int) = s := by
  have h : ¬ ((s.length : Int) = -1) := by omega
  simp [srcUnits, h]

theorem srcUnits_terminated (s tail : List Nat) (hs : ∀ u ∈ s, u ≠ 0) :
    srcUnits (s ++ 0 :: tail) (-1) = s := by
  simp only [srcUnits, if_true]
  induction s with
  | nil => simp
  | cons u rest ih =>
    have hu : u ≠ 0 := hs u (List.mem_cons_self u rest)
    simp only [List.cons_append, List.takeWhile_cons, bne_iff_ne, ne_eq, hu, not_false_eq_true,
      if_true]
    rw [ih (fun x hx => hs x (List.mem_cons_of_mem u hx))]

/-- The two ways the test passes a source string `s`: with its length, or
NUL-terminated with length -1. -/
theorem srcUnits_of_mode (s src : List Nat) (srcLength : Int)
    (hmode : (srcLength = s.length ∧ ∃ tail, src = s ++ tail) ∨
      (srcLength = -1 ∧ (∀ u ∈ s, u ≠ 0) ∧ ∃ tail, src = s ++ 0 :: tail)) :
    srcUnits src srcLength = s ∧ ¬ srcLength < -1 := by
  rcases hmode with ⟨hl, tail, rfl⟩ | ⟨hl, hs, tail, rfl⟩
  · subst hl
    exact ⟨srcUnits_explicit s tail, by omega⟩
  · subst hl
    exact ⟨srcUnits_terminated s tail hs, by omega⟩

/-- A conversion of well-formed input from a success status: the length reported
is that of the output whatever the capacity, and a destination that can hold
the output receives all of it, with a success status. -/
theorem convert_output (transform : List Nat → Option (List Nat)) (src : List Nat)
    (srcLength : Int) (out : List Nat) (hlen : ¬ srcLength < -1)
    (hout : transform (srcUnits src srcLength) = some out) (destCapacity : Nat) :
    (convert transform destCapacity src srcLength U_ZERO_ERROR).destLength = out.length ∧
      (out.length ≤ destCapacity →
        (convert transform destCapacity src srcLength U_ZERO_ERROR).dest = out ∧
          U_SUCCESS (convert transform destCapacity src srcLength U_ZERO_ERROR).err = true) ∧
      (destCapacity < out.length →
        (convert transform destCapacity src srcLength U_ZERO_ERROR).err =
          U_BUFFER_OVERFLOW_ERROR) := by
  have hz : U_FAILURE U_ZERO_ERROR = false := by decide
  simp only [convert, hz, Bool.false_eq_true, if_false, hlen, hout, deliver]
  refine ⟨trivial, ?_, ?_⟩
  · intro hcap
    refine ⟨List.take_of_length_le hcap, ?_⟩
    have h1 : ¬ destCapacity < out.length := by omega
    simp only [h1, if_false]
    split <;> decide
  · intro hcap
    simp [hcap]

theorem srcUnits_natCast (bytes : List Nat) : srcUnits bytes (bytes.length : Int) = bytes := by
  simpa using srcUnits_explicit bytes []

/-! ## C17: UTF-16 and UTF-32 -/

/-- C17.  For every well-formed UTF-16 string `s`, passed with its length or
NUL-terminated with length -1: `u_strToUTF32` reports and writes the code
points of `s`, one per unit, all of them scalar values, and `u_strFromUTF32`
turns these code points back into `s`, so that the round trip preflighted as in
the test gives `s` again with a success status.  A surrogate pair becomes the
one supplementary code point it encodes, and that code point becomes the pair;
a unit that is no surrogate stays as it is. -/
theorem utf32_round_trip (s src : List Nat) (srcLength : Int)
    (hwf : wellFormed16 s = true)
    (hmode : (srcLength = s.length ∧ ∃ tail, src = s ++ tail) ∨
      (srcLength = -1 ∧ (∀ u ∈ s, u ≠ 0) ∧ ∃ tail, src = s ++ 0 :: tail)) :
    (∃ cps, decode16 s = some cps ∧ (∀ c ∈ cps, isScalar c = true) ∧
      (u_strToUTF32 0 src srcLength U_ZERO_ERROR).destLength = cps.length ∧
      (u_strToUTF32 (cps.length + 1) src srcLength U_ZERO_ERROR).dest = cps ∧
      (u_strFromUTF32 0 cps cps.length U_ZERO_ERROR).destLength = s.length ∧
      (u_strFromUTF32 (s.length + 1) cps cps.length U_ZERO_ERROR).dest = s) ∧
    (roundTripUTF32 src srcLength).dest = s ∧
    (roundTripUTF32 src srcLength).destLength = s.length ∧
    U_SUCCESS (roundTripUTF32 src srcLength).err = true ∧
    (∀ lead trail, isLead lead = true → isTrail trail = true →
      decode16 [lead, trail] = some [pairValue lead trail] ∧
        encode16One (pairValue lead trail) = some [lead, trail]) ∧
    (∀ u, isLead u = false → isTrail u = false → u < 0x10000 →
      decode16 [u] = some [u] ∧ encode16One u = some [u]) := by
  obtain ⟨hsrc, hlen⟩ := srcUnits_of_mode s src srcLength hmode
  obtain ⟨cps, hd, he, hsc, _⟩ := decode16_wellFormed s.length s (le_refl _) hwf
  have hto : decode16 (srcUnits src srcLength) = some cps := by rw [hsrc, hd]
  have hfrom : encodeAll encode16One (srcUnits cps (cps.length : Int)) = some s := by
    rw [srcUnits_natCast, he]
  have hlen2 : ¬ ((cps.length : Int) < -1) := by omega
  have c1 := convert_output decode16 src srcLength cps hlen hto
  have c2 := convert_output (encodeAll encode16One) cps cps.length s hlen2 hfrom
  have hpre : (u_strToUTF32 0 src srcLength U_ZERO_ERROR).destLength = cps.length := (c1 0).1
  have hto32 := (c1 (cps.length + 1)).2.1 (by omega)
  have hto32len := (c1 (cps.length + 1)).1
  have hpre16 : (u_strFromUTF32 0 cps cps.length U_ZERO_ERROR).destLength = s.length :=
    (c2 0).1
  have hback := (c2 (s.length + 1)).2.1 (by omega)
  have hbacklen := (c2 (s.length + 1)).1
  have hround : roundTripUTF32 src srcLength =
      u_strFromUTF32 (s.length + 1) cps cps.length U_ZERO_ERROR := by
    simp only [roundTripUTF32, hpre]
    have e1 : (u_strToUTF32 (cps.length + 1) src srcLength U_ZERO_ERROR).dest = cps := hto32.1
    have e2 : (u_strToUTF32 (cps.length + 1) src srcLength U_ZERO_ERROR).destLength =
        cps.length := hto32len
    rw [e1, e2, hpre16]
  refine ⟨⟨cps, hd, hsc, hpre, hto32.1, hpre16, hback.1⟩, ?_, ?_, ?_, ?_, ?_⟩
  · rw [hround]
    exact hback.1
  · rw [hround]
    exact hbacklen
  · rw [hround]
    exact hback.2
  · intro lead trail hl ht
    refine ⟨?_, (encode16One_pair lead trail hl ht).1⟩
    simp [decode16, hl, ht]
  · intro u h1 h2 h3
    have h3n : ¬ 0x10000 ≤ u := by omega
    refine ⟨?_, (encode16One_bmp u h1 h2 h3).1⟩
    simp [decode16, h1, h2, h3n]

set_option maxRecDepth 100000 in
/-- C17 on the arrays of the test: `src16` with its length is well formed, its
conversion is `src32`, the conversion of `src32` is `src16`, and the round trip
gives `src16` again. -/
theorem utf32_round_trip_witness :
    wellFormed16 src16 = true ∧
    (u_strToUTF32 (src32.length + 1) src16 src16.length U_ZERO_ERROR).dest = src32 ∧
    (u_strFromUTF32 (src16.length + 1) src32 src32.length U_ZERO_ERROR).dest = src16 ∧
    (roundTripUTF32 src16 src16.length).dest = src16 ∧
    (roundTripUTF32 src16 src16.length).destLength = src16.length ∧
    U_SUCCESS (roundTripUTF32 src16 src16.length).err = true := by
  have t := utf32_round_trip src16 src16 src16.length (by decide)
    (Or.inl ⟨rfl, [], by simp⟩)
  exact ⟨by decide, by decide, by decide, t.2.1, t.2.2.1, t.2.2.2.1⟩

/-! ## C16: UTF-16 and UTF-8 -/

/-- C16.  For every well-formed UTF-16 string `s`, passed with its length or
NUL-terminated with length -1: `u_strToUTF8` preflighted with capacity 0
reports the length of the UTF-8 form of `s` and, given a buffer of that size,
writes it; `u_strFromUTF8`, preflighted and run in the same way on that result,
gives `s` again, unit for unit, with the length of `s` and a success status. -/
theorem utf8_round_trip (s src : List Nat) (srcLength : Int)
    (hwf : wellFormed16 s = true)
    (hmode : (srcLength = s.length ∧ ∃ tail, src = s ++ tail) ∨
      (srcLength = -1 ∧ (∀ u ∈ s, u ≠ 0) ∧ ∃ tail, src = s ++ 0 :: tail)) :
    (∃ bytes, (decode16 s).bind (encodeAll encode8One) = some bytes ∧
      (u_strToUTF8 0 src srcLength U_ZERO_ERROR).destLength = bytes.length ∧
      (u_strToUTF8 bytes.length src srcLength U_ZERO_ERROR).dest = bytes ∧
      (u_strFromUTF8 0 bytes bytes.length U_ZERO_ERROR).destLength = s.length ∧
      (u_strFromUTF8 s.length bytes bytes.length U_ZERO_ERROR).dest = s) ∧
    (roundTripUTF8 src srcLength).dest = s ∧
    (roundTripUTF8 src srcLength).destLength = s.length ∧
    U_SUCCESS (roundTripUTF8 src srcLength).err = true := by
  obtain ⟨hsrc, hlen⟩ := srcUnits_of_mode s src srcLength hmode
  obtain ⟨cps, hd, he, hsc, _⟩ := decode16_wellFormed s.length s (le_refl _) hwf
  obtain ⟨bytes, henc, hdec⟩ := decode8_encodeAll cps hsc
  have hbytes : (decode16 s).bind (encodeAll encode8One) = some bytes := by
    rw [hd]
    exact henc
  have hto : (fun x => (decode16 x).bind (encodeAll encode8One)) (srcUnits src srcLength) =
      some bytes := by
    simp only [hsrc]
    exact hbytes
  have hfrom : (fun x => (decode8 x.length x).bind (encodeAll encode16One))
      (srcUnits bytes (bytes.length : Int)) = some s := by
    simp only [srcUnits_natCast, hdec bytes.length (le_refl _)]
    exact he
  have hlen2 : ¬ ((bytes.length : Int) < -1) := by omega
  have c1 := convert_output (fun x => (decode16 x).bind (encodeAll encode8One)) src srcLength
    bytes hlen hto
  have c2 := convert_output (fun x => (decode8 x.length x).bind (encodeAll encode16One)) bytes
    bytes.length s hlen2 hfrom
  have hpre : (u_strToUTF8 0 src srcLength U_ZERO_ERROR).destLength = bytes.length := (c1 0).1
  have hto8 := (c1 bytes.length).2.1 (le_refl _)
  have hto8len := (c1 bytes.length).1
  have hpre16 : (u_strFromUTF8 0 bytes bytes.length U_ZERO_ERROR).destLength = s.length :=
    (c2 0).1
  have hback := (c2 s.length).2.1 (le_refl _)
  have hbacklen := (c2 s.length).1
  have hround : roundTripUTF8 src srcLength =
      u_strFromUTF8 s.length bytes bytes.length U_ZERO_ERROR := by
    simp only [roundTripUTF8, hpre]
    have e1 : (u_strToUTF8 bytes.length src srcLength U_ZERO_ERROR).dest = bytes := hto8.1
    have e2 : (u_strToUTF8 bytes.length src srcLength U_ZERO_ERROR).destLength =
        bytes.length := hto8len
    rw [e1, e2, hpre16]
  refine ⟨⟨bytes, hbytes, hpre, hto8.1, hpre16, hback.1⟩, ?_, ?_, ?_⟩
  · rw [hround]
    exact hback.1
  · rw [hround]
    exact hbacklen
  · rw [hround]
    exact hback.2

set_option maxRecDepth 100000 in
/-- C16 on the array of the test: `src16` is well formed without its final NUL and
free of NUL units, so the NUL-terminated round trip gives it again; the round
trip of the whole array with its length gives the whole array. -/
theorem utf8_round_trip_witness :
    wellFormed16 src16.dropLast = true ∧ (∀ u ∈ src16.dropLast, u ≠ 0) ∧
    (roundTripUTF8 src16 (-1)).dest = src16.dropLast ∧
    (roundTripUTF8 src16 (-1)).destLength = src16.dropLast.length ∧
    U_SUCCESS (roundTripUTF8 src16 (-1)).err = true ∧
    (roundTripUTF8 src16 src16.length).dest = src16 := by
  have hz : ∀ u ∈ src16.dropLast, u ≠ 0 := by decide
  have t := utf8_round_trip src16.dropLast src16 (-1) (by decide)
    (Or.inr ⟨rfl, hz, [], by decide⟩)
  exact ⟨by decide, hz, t.2.1, t.2.2.1, t.2.2.2, by decide⟩

end Ustrtrn
